import Mathlib

/-!
Verification development for the Tiger-Shaman werewolf game backend.

The definitions below are a shallow embedding of the Go sources:
  - internal/models (Player, GameRoom, phases, roles, event handlers),
  - internal/game/manager.go (StartGame, assignRoles, Vote, processVotes,
    MoveToNextPhase, getNightActionOrder, MoveToNextNightRole,
    MarkNightActionComplete, HunterShoot, checkGameEndLocked),
  - internal/game/logic.go (ProcessNightPhase).

Go maps are embedded as association lists; Go map iteration order, which is
unspecified, becomes the list order.  Go `nil`-pointer dereferences (runtime
panics) are embedded as `Option` results (`none` = crash).  Operations that
return a Go `error` before performing any writes are embedded as `Except`
values; an `Except.error` result leaves the caller's room untouched, exactly
as in the source, where every error return precedes the first mutation.
Wall-clock time is a `Nat` parameter (`now`, in seconds), so
`time.Now().Add(2 * time.Minute)` becomes `now + 120`.
-/

namespace Werewolf

/-- Role, from models: alpha_tiger, tiger, shaman, hunter, villager. -/
inductive Role where
  | alphaTiger
  | tiger
  | shaman
  | hunter
  | villager
  deriving DecidableEq, Repr

/-- GamePhase, from models: waiting, night, day, voting, ended. -/
inductive GamePhase where
  | waiting
  | night
  | day
  | voting
  | ended
  deriving DecidableEq, Repr

/-- Errors returned by the Go controller functions.  The named constructors
are the package-level error variables of internal/game; `msg` embeds the
ad-hoc `GameError` string literals. -/
inductive GameError where
  | roomNotFound
  | roomFull
  | gameAlreadyStarted
  | notEnoughPlayers
  | msg (s : String)
  deriving DecidableEq, Repr

/-- Player, from the models package.  The Go `Role` string zero value ""
(no role assigned yet) is embedded as `none`; `JoinedAt` as a `Nat`
timestamp. -/
structure Player where
  id : String
  username : String
  role : Option Role
  isAlive : Bool
  isReady : Bool
  isCursed : Bool
  hasUsedCurse : Bool
  canShoot : Bool
  lastProtected : String
  hasActedThisNight : Bool
  votedFor : String
  roomCode : String
  joinedAt : Nat
  deriving DecidableEq, Repr

/-- GameRoom, from the models package.  `Players` (a Go map) is an
association list keyed by player id; `VoteResults` likewise maps target id
to vote count; list position stands for Go's map iteration order.
`CurrentNightRole`'s zero value "" is `none`. -/
structure GameRoom where
  code : String
  hostId : String
  players : List (String × Player)
  phase : GamePhase
  round : Nat
  maxPlayers : Nat
  voteResults : List (String × Int)
  hunterProtection : String
  tigerTarget : String
  shamanVision : String
  killedTonight : String
  cursedPlayer : String
  phaseEndTime : Option Nat
  nightActionsCompleted : List String
  nightActionsRequired : Nat
  currentNightRole : Option Role
  nightActionOrder : List Role
  waitingHunterShoot : Bool
  deadHunterId : String
  winningTeam : String
  startedAt : Option Nat
  createdAt : Nat
  deriving DecidableEq, Repr

/-- NightResult, from logic.go.  The Go field `Protected` is renamed
`protectedFlag` because `protected` is a Lean keyword. -/
structure NightResult where
  killed : String
  protectedFlag : Bool
  shamanSaved : Bool
  shamanVision : String
  visionResult : String
  deriving DecidableEq, Repr

instance {ε α : Type} [DecidableEq ε] [DecidableEq α] : DecidableEq (Except ε α) :=
  fun a b =>
    match a, b with
    | .ok x, .ok y =>
      decidable_of_iff (x = y) ⟨fun h => by rw [h], fun h => Except.ok.inj h⟩
    | .error x, .error y =>
      decidable_of_iff (x = y) ⟨fun h => by rw [h], fun h => Except.error.inj h⟩
    | .ok _, .error _ => .isFalse (fun h => Except.noConfusion h)
    | .error _, .ok _ => .isFalse (fun h => Except.noConfusion h)

/-- Go map read `room.Players[pid]`: first binding for the key, `none` when
absent (a `nil` pointer in Go). -/
def lookupP : List (String × Player) → String → Option Player
  | [], _ => none
  | kv :: rest, pid => if kv.1 = pid then kv.2 else lookupP rest pid

/-- Go map write `room.Players[pid] = p` for a key already present: replace
the binding.  Every call site in the embedded code first looks the key up,
so the insert-when-absent case of the Go map write is unreachable. -/
def updateList (ps : List (String × Player)) (pid : String) (p : Player) :
    List (String × Player) :=
  ps.map (fun kv => if kv.1 = pid then (pid, p) else kv)

/-- Replace one player's record inside the room. -/
def setPlayer (room : GameRoom) (pid : String) (p : Player) : GameRoom :=
  { room with players := updateList room.players pid p }

/-- Alive flag of a player as stored in the room, `none` if the id is
unknown. -/
def aliveOf (room : GameRoom) (pid : String) : Option Bool :=
  (lookupP room.players pid).map Player.isAlive

/-- Go set insert `m[pid] = true` on a `map[string]bool` used as a set. -/
def insertId (l : List String) (pid : String) : List String :=
  if pid ∈ l then l else l ++ [pid]

/-- Go map read `voteResults[t]`: 0 when absent (Go zero value). -/
def lookupVote : List (String × Int) → String → Int
  | [], _ => 0
  | kv :: rest, t => if kv.1 = t then kv.2 else lookupVote rest t

/-- Go map write `voteResults[t] = v`: replace the first binding, append
when absent. -/
def setVote : List (String × Int) → String → Int → List (String × Int)
  | [], t, v => [(t, v)]
  | kv :: rest, t, v => if kv.1 = t then (t, v) :: rest else kv :: setVote rest t v

/-- Go `delete(voteResults, t)`. -/
def eraseVote (l : List (String × Int)) (t : String) : List (String × Int) :=
  l.filter (fun kv => kv.1 ≠ t)

/-- Vote decrement from manager.go Vote: `voteResults[t]--` followed by
`delete` when the new count is ≤ 0. -/
def voteDec (l : List (String × Int)) (t : String) : List (String × Int) :=
  let v := lookupVote l t - 1
  if v ≤ 0 then eraseVote l t else setVote l t v

/-- Vote increment from manager.go Vote: `voteResults[t]++`. -/
def voteInc (l : List (String × Int)) (t : String) : List (String × Int) :=
  setVote l t (lookupVote l t + 1)

/-- Sum of all tallied votes. -/
def voteSum (l : List (String × Int)) : Int :=
  (l.map Prod.snd).sum

/-- Role list built by assignRoles (manager.go): AlphaTiger and Tiger when
the player count is at least 7, otherwise Tiger alone; always one Hunter
and one Shaman; Villagers fill the remainder up to the player count. -/
def buildRoles (n : Nat) : List Role :=
  let base : List Role :=
    (if 7 ≤ n then [Role.alphaTiger, Role.tiger] else [Role.tiger])
      ++ [Role.hunter, Role.shaman]
  base ++ List.replicate (n - base.length) Role.villager

/-- Assignment loop of assignRoles (manager.go): walk the players in map
iteration order, give player i the i-th shuffled role, clear the per-game
flags, and set canShoot exactly for the Hunter.  The Go loop indexes
`roles[i]` with one role per player; the leftover case (fewer roles than
players) never arises because assignRoles builds exactly one role per
player. -/
def assignList : List (String × Player) → List Role → List (String × Player)
  | [], _ => []
  | kv :: rest, [] => kv :: rest
  | kv :: rest, r :: rs =>
      (kv.1, { kv.2 with
                role := some r
                isCursed := false
                hasUsedCurse := false
                canShoot := r = Role.hunter
                lastProtected := "" }) :: assignList rest rs

/-- assignRoles (manager.go), with the outcome of `rand.Shuffle` passed in
as the `shuffled` list. -/
def assignRolesWith (room : GameRoom) (shuffled : List Role) : GameRoom :=
  { room with players := assignList room.players shuffled }

/-- StartGame (manager.go): fewer than 5 players is the only precondition;
on success assign roles, record startedAt, enter Day with round 1 and a
120-second timer, clear hasActedThisNight for everyone and reset the
completed-actions set.  No requester identity and no phase are checked. -/
def startGame (room : GameRoom) (now : Nat) (shuffled : List Role) :
    Except GameError GameRoom :=
  if room.players.length < 5 then .error .notEnoughPlayers
  else
    let room1 := assignRolesWith room shuffled
    .ok { room1 with
            startedAt := some now
            phase := GamePhase.day
            round := 1
            phaseEndTime := some (now + 120)
            players := room1.players.map
              (fun kv => (kv.1, { kv.2 with hasActedThisNight := false }))
            nightActionsCompleted := [] }

/-- EventStartGame branch of handleWebSocketMessage (models.go): the
handler calls StartGame with the room code only; the sender's identity is
ignored, which is why the parameter is unused. -/
def handleStartGame (_senderId : String) (room : GameRoom) (now : Nat)
    (shuffled : List Role) : Except GameError GameRoom :=
  startGame room now shuffled

/-- SkipPhase (manager.go): the host-checked phase skip.  It only clears
the phase timer; the websocket handler never calls it. -/
def skipPhase (room : GameRoom) (playerId : String) :
    Except GameError GameRoom :=
  if room.hostId ≠ playerId then .error (.msg "only host can skip phase")
  else .ok { room with phaseEndTime := none }

/-- checkGameEndLocked (manager.go): count alive tigers (Tiger or
AlphaTiger) against everyone else alive; tigers win when they are at least
as many and nonzero, humans win when no tiger is alive. -/
def checkGameEndLocked (room : GameRoom) : Bool × String :=
  let tigers := (room.players.filter (fun kv =>
    kv.2.isAlive ∧ (kv.2.role = some Role.tiger ∨ kv.2.role = some Role.alphaTiger))).length
  let humans := (room.players.filter (fun kv =>
    kv.2.isAlive ∧ ¬(kv.2.role = some Role.tiger ∨ kv.2.role = some Role.alphaTiger))).length
  if humans ≤ tigers ∧ 0 < tigers then (true, "tiger")
  else if tigers = 0 then (true, "human") else (false, "")

/-- getNightActionOrder (manager.go): Hunter, Tiger, AlphaTiger, Shaman,
keeping only roles with at least one living holder. -/
def getNightActionOrder (room : GameRoom) : List Role :=
  let present := fun r => room.players.any (fun kv => kv.2.isAlive ∧ kv.2.role = some r)
  (if present Role.hunter then [Role.hunter] else [])
    ++ (if present Role.tiger then [Role.tiger] else [])
    ++ (if present Role.alphaTiger then [Role.alphaTiger] else [])
    ++ (if present Role.shaman then [Role.shaman] else [])

/-- Vote (manager.go): only during Voting, voter and target must exist and
be alive; the voter's previous vote is decremented (entry dropped at ≤ 0)
before the new target is incremented and votedFor rewritten. -/
def vote (room : GameRoom) (playerId targetId : String) :
    Except GameError GameRoom :=
  if room.phase ≠ GamePhase.voting then
    .error (.msg "voting is only allowed during voting phase")
  else
    match lookupP room.players playerId with
    | none => .error (.msg "player cannot vote")
    | some player =>
      if ¬player.isAlive then .error (.msg "player cannot vote")
      else
        match lookupP room.players targetId with
        | none => .error (.msg "invalid vote target")
        | some target =>
          if ¬target.isAlive then .error (.msg "invalid vote target")
          else
            let vr1 := if player.votedFor ≠ "" then
                voteDec room.voteResults player.votedFor
              else room.voteResults
            let room1 := setPlayer room playerId { player with votedFor := targetId }
            .ok { room1 with voteResults := voteInc vr1 targetId }

/-- Vote-victim scan of processVotes (manager.go): iterate the tally and
keep the first entry whose count strictly exceeds the running maximum,
starting from maxVotes = 0 and an empty id. -/
def selectVictim (l : List (String × Int)) : Int × String :=
  l.foldl (fun acc kv => if acc.1 < kv.2 then (kv.2, kv.1) else acc) (0, "")

/-- processVotes (manager.go): on an empty tally return at once; otherwise
eliminate the selected victim when one was found with a positive count,
raise waitingHunterShoot for a shootable Hunter, then clear the tally and
every votedFor. -/
def processVotes (room : GameRoom) : GameRoom :=
  if room.voteResults = [] then room
  else
    let sel := selectVictim room.voteResults
    let room1 :=
      if sel.2 ≠ "" ∧ 0 < sel.1 then
        match lookupP room.players sel.2 with
        | some p =>
          let rm := setPlayer room sel.2 { p with isAlive := false }
          if p.role = some Role.hunter ∧ p.canShoot then
            { rm with waitingHunterShoot := true, deadHunterId := sel.2 }
          else rm
        | none => room
      else room
    { room1 with
        voteResults := []
        players := room1.players.map (fun kv => (kv.1, { kv.2 with votedFor := "" })) }

/-- Kill step of ProcessNightPhase (logic.go).  `none` embeds the Go
nil-pointer dereference: when the tiger target is a protected-by-nobody
unknown id the source writes through a nil `victim` pointer and panics. -/
def nightKillStep (room : GameRoom) : Option (NightResult × GameRoom) :=
  let res0 : NightResult := ⟨"", false, false, "", ""⟩
  if room.tigerTarget = "" then some (res0, room)
  else if room.hunterProtection = room.tigerTarget then
    some ({ res0 with protectedFlag := true }, room)
  else
    match lookupP room.players room.tigerTarget with
    | none => none
    | some victim =>
      if victim.role = some Role.shaman ∧ room.shamanVision ≠ "" then
        match lookupP room.players room.shamanVision with
        | some seen =>
          if seen.role = some Role.alphaTiger ∧ seen.hasUsedCurse = false then
            some ({ res0 with shamanSaved := true }, room)
          else
            some ({ res0 with killed := room.tigerTarget },
                  setPlayer room room.tigerTarget { victim with isAlive := false })
        | none =>
          some ({ res0 with killed := room.tigerTarget },
                setPlayer room room.tigerTarget { victim with isAlive := false })
      else
        some ({ res0 with killed := room.tigerTarget },
              setPlayer room room.tigerTarget { victim with isAlive := false })

/-- Vision step of ProcessNightPhase (logic.go), reading the room as left
by the kill step: cursed targets read "tiger"; an AlphaTiger reads "tiger"
only once its curse is spent; a Tiger reads "tiger"; everyone else reads
"human".  The result also carries the seen player's username. -/
def visionStep (room : GameRoom) (res : NightResult) : NightResult :=
  if room.shamanVision = "" then res
  else
    match lookupP room.players room.shamanVision with
    | none => res
    | some t =>
      let vr := if t.isCursed then "tiger"
        else if t.role = some Role.alphaTiger then
          (if t.hasUsedCurse then "tiger" else "human")
        else if t.role = some Role.tiger then "tiger"
        else "human"
      { res with visionResult := vr, shamanVision := t.username }

/-- ProcessNightPhase (logic.go): kill step, vision step, then clear the
three night-intent slots.  `none` is the embedded runtime panic. -/
def processNightPhase (room : GameRoom) : Option (NightResult × GameRoom) :=
  match nightKillStep room with
  | none => none
  | some (res0, room1) =>
    let res := visionStep room1 res0
    some (res, { room1 with tigerTarget := "", hunterProtection := "", shamanVision := "" })

/-- MoveToNextPhase (manager.go).  Returns the broadcast NightResult (when
leaving Night) and the updated room; the outer `Option` embeds a panic
propagated from ProcessNightPhase. -/
def moveToNextPhase (room : GameRoom) (now : Nat) :
    Option (Except GameError (Option NightResult × GameRoom)) :=
  match room.phase with
  | GamePhase.night =>
    match processNightPhase room with
    | none => none
    | some (res, room1) =>
      let deferHunter : Bool :=
        (res.killed != "") &&
          (match lookupP room1.players res.killed with
           | some kp => (kp.role == some Role.hunter) && kp.canShoot
           | none => false)
      if deferHunter then
        some (.ok (some res,
          { room1 with waitingHunterShoot := true, deadHunterId := res.killed }))
      else
        let ew := checkGameEndLocked room1
        if ew.1 then
          some (.ok (some res, { room1 with phase := GamePhase.ended, winningTeam := ew.2 }))
        else
          some (.ok (some res,
            { room1 with
                phase := GamePhase.day
                phaseEndTime := some (now + 120)
                round := room1.round + 1
                players := room1.players.map
                  (fun kv => (kv.1, { kv.2 with hasActedThisNight := false }))
                nightActionsCompleted := [] }))
  | GamePhase.day =>
    some (.ok (none,
      { room with
          phase := GamePhase.voting
          phaseEndTime := some (now + 120)
          voteResults := []
          players := room.players.map (fun kv => (kv.1, { kv.2 with votedFor := "" })) }))
  | GamePhase.voting =>
    let room1 := processVotes room
    if room1.waitingHunterShoot then
      some (.ok (none, { room1 with phaseEndTime := none }))
    else
      let ew := checkGameEndLocked room1
      if ew.1 then
        some (.ok (none, { room1 with phase := GamePhase.ended, winningTeam := ew.2 }))
      else
        let order := getNightActionOrder room1
        some (.ok (none,
          { room1 with
              phase := GamePhase.night
              phaseEndTime := none
              players := room1.players.map
                (fun kv => (kv.1, { kv.2 with hasActedThisNight := false }))
              nightActionsCompleted := []
              nightActionOrder := order
              currentNightRole := order.head? }))
  | _ => some (.error (.msg "invalid phase transition"))

/-- EventSkipPhase branch of handleWebSocketMessage (models.go): the
handler invokes MoveToNextPhase directly — it neither consults SkipPhase
nor checks that the sender is the host, so the parameter is unused. -/
def handleSkipPhase (_senderId : String) (room : GameRoom) (now : Nat) :
    Option (Except GameError (Option NightResult × GameRoom)) :=
  moveToNextPhase room now

/-- First index holding the current night role, from the scan loop of
MoveToNextNightRole (manager.go); `none` both when the role is absent from
the order and when currentNightRole is unset (Go index -1). -/
def roleIdx (order : List Role) : Option Role → Option Nat
  | none => none
  | some r => order.findIdx? (fun x => x = r)

/-- MoveToNextNightRole (manager.go): only during Night; advance
currentNightRole to the next entry of nightActionOrder, or clear it and
report completion when the scan found no successor. -/
def moveToNextNightRole (room : GameRoom) :
    Except GameError (Bool × GameRoom) :=
  if room.phase ≠ GamePhase.night then .error (.msg "not in night phase")
  else
    match roleIdx room.nightActionOrder room.currentNightRole with
    | some i =>
      if i + 1 < room.nightActionOrder.length then
        .ok (false, { room with currentNightRole := room.nightActionOrder.get? (i + 1) })
      else .ok (true, { room with currentNightRole := none })
    | none => .ok (true, { room with currentNightRole := none })

/-- MarkNightActionComplete (manager.go) as a total function: set
hasActedThisNight and record the id in the completed set; when the id is
unknown the Go function returns an error without writing, and its only
callers discard that error, so the room is simply unchanged. -/
def markNightActionCompleteFn (room : GameRoom) (pid : String) : GameRoom :=
  match lookupP room.players pid with
  | none => room
  | some p =>
    { setPlayer room pid { p with hasActedThisNight := true } with
        nightActionsCompleted := insertId room.nightActionsCompleted pid }

/-- HunterShoot (manager.go): the actor need only exist with role Hunter —
dead or alive — and the target must exist and be alive; neither
waitingHunterShoot nor deadHunterId is consulted and canShoot is left
untouched.  On success the target dies and the waiting state is reset. -/
def hunterShoot (room : GameRoom) (hunterId targetId : String) :
    Except GameError GameRoom :=
  match lookupP room.players hunterId with
  | none => .error (.msg "not a hunter")
  | some hunter =>
    if hunter.role ≠ some Role.hunter then .error (.msg "not a hunter")
    else
      match lookupP room.players targetId with
      | none => .error (.msg "invalid target")
      | some target =>
        if ¬target.isAlive then .error (.msg "invalid target")
        else
          .ok { setPlayer room targetId { target with isAlive := false } with
                  waitingHunterShoot := false
                  deadHunterId := "" }

/-- Curse application inside the EventCurseAction handler (models.go):
mark the target cursed, then re-read the acting player and spend the curse,
then record cursedPlayer.  The re-read mirrors Go's pointer semantics when
the actor and target coincide. -/
def applyCurse (room : GameRoom) (clientId targetId : String) (target : Player) :
    GameRoom :=
  let r1 := setPlayer room targetId { target with isCursed := true }
  match lookupP r1.players clientId with
  | none => r1
  | some pl =>
    { setPlayer r1 clientId { pl with hasUsedCurse := true } with
        cursedPlayer := targetId }

/-- Tail of the EventCurseAction handler (models.go), starting right after
the curse application: MarkNightActionComplete (whose error the handler
discards), MoveToNextNightRole with its error sent to the caller, and —
when every role has acted — MoveToNextPhase followed by the game-end
check. -/
def curseAdvance (room1 : GameRoom) (clientId : String) (now : Nat) :
    Option (Option GameError × GameRoom) :=
  match moveToNextNightRole (markNightActionCompleteFn room1 clientId) with
  | .error e => some (some e, markNightActionCompleteFn room1 clientId)
  | .ok (allDone, room3) =>
    if allDone then
      match moveToNextPhase room3 now with
      | none => none
      | some (.error e) => some (some e, room3)
      | some (.ok (_, room4)) =>
        if (checkGameEndLocked room4).1 then
          some (none,
            { room4 with
                phase := GamePhase.ended
                winningTeam := (checkGameEndLocked room4).2 })
        else some (none, room4)
    else some (none, room3)

/-- EventCurseAction branch of handleWebSocketMessage (models.go).  The
returned pair is (error sent to the caller, room after the handler); the
outer `Option` embeds the nil dereference when the sender is not in the
room.  An unknown or dead target silently skips the curse application but
still marks the turn complete and advances the night role via
`curseAdvance`. -/
def handleCurseAction (room : GameRoom) (clientId targetId : String) (now : Nat) :
    Option (Option GameError × GameRoom) :=
  if targetId = "" then some (some (.msg "invalid curse target"), room)
  else
    match lookupP room.players clientId with
    | none => none
    | some player =>
      if player.role ≠ some Role.alphaTiger then
        some (some (.msg "only alpha tiger can curse"), room)
      else if player.hasUsedCurse then
        some (some (.msg "curse already used"), room)
      else
        curseAdvance
          (match lookupP room.players targetId with
            | some target =>
              if target.isAlive then applyCurse room clientId targetId target else room
            | none => room)
          clientId now

/-- JSON spelling of a role, from the models constants. -/
def roleStr : Role → String
  | Role.alphaTiger => "alpha_tiger"
  | Role.tiger => "tiger"
  | Role.shaman => "shaman"
  | Role.hunter => "hunter"
  | Role.villager => "villager"

/-- JSON spelling of a bool. -/
def boolStr (b : Bool) : String := if b then "true" else "false"

/-- json.Marshal of a Player (models struct tags): every field is emitted
unconditionally except those tagged omitempty — role, isCursed,
hasUsedCurse, canShoot, lastProtected, hasActedThisNight, votedFor — which
are emitted exactly when non-zero.  The result is the ordered list of
emitted key/value pairs; joinedAt is elided as an uninformative
timestamp. -/
def serializePlayer (p : Player) : List (String × String) :=
  [("id", p.id), ("username", p.username)]
    ++ (match p.role with
        | some r => [("role", roleStr r)]
        | none => [])
    ++ [("isAlive", boolStr p.isAlive), ("isReady", boolStr p.isReady)]
    ++ (if p.isCursed then [("isCursed", "true")] else [])
    ++ (if p.hasUsedCurse then [("hasUsedCurse", "true")] else [])
    ++ (if p.canShoot then [("canShoot", "true")] else [])
    ++ (if p.lastProtected ≠ "" then [("lastProtected", p.lastProtected)] else [])
    ++ (if p.hasActedThisNight then [("hasActedThisNight", "true")] else [])
    ++ (if p.votedFor ≠ "" then [("votedFor", p.votedFor)] else [])
    ++ [("roomCode", p.roomCode)]

/-- The players portion of the room snapshot that broadcastToRoom
(models.go) marshals: json.Marshal serializes the whole `room.Players`
map, one serialized Player per id. -/
def roomBroadcastPlayers (room : GameRoom) : List (String × List (String × String)) :=
  room.players.map (fun kv => (kv.1, serializePlayer kv.2))

/-- Player payload delivered to one recipient by broadcastToRoom
(models.go): the hub sends the identical marshaled bytes to every client
whose RoomCode matches, so the recipient id does not influence the
content — which is exactly what the unused parameter records. -/
def deliveredPlayersPayload (room : GameRoom) (_recipientId : String) :
    List (String × List (String × String)) :=
  roomBroadcastPlayers room

/-- Serialized fields of one player inside a delivered payload. -/
def payloadFieldsOf : List (String × List (String × String)) → String →
    List (String × String)
  | [], _ => []
  | kv :: rest, pid => if kv.1 = pid then kv.2 else payloadFieldsOf rest pid

/-- Builder for concrete test players (all optional flags off). -/
def mkPlayer (pid uname : String) (r : Option Role) (alive : Bool) : Player :=
  { id := pid
    username := uname
    role := r
    isAlive := alive
    isReady := false
    isCursed := false
    hasUsedCurse := false
    canShoot := false
    lastProtected := ""
    hasActedThisNight := false
    votedFor := ""
    roomCode := "ABCDEF"
    joinedAt := 0 }

/-- Builder for concrete test rooms. -/
def mkRoom (host : String) (ps : List (String × Player)) (ph : GamePhase) : GameRoom :=
  { code := "ABCDEF"
    hostId := host
    players := ps
    phase := ph
    round := 0
    maxPlayers := 10
    voteResults := []
    hunterProtection := ""
    tigerTarget := ""
    shamanVision := ""
    killedTonight := ""
    cursedPlayer := ""
    phaseEndTime := none
    nightActionsCompleted := []
    nightActionsRequired := 0
    currentNightRole := none
    nightActionOrder := []
    waitingHunterShoot := false
    deadHunterId := ""
    winningTeam := ""
    startedAt := none
    createdAt := 0 }

/-- Number of players satisfying a Boolean predicate. -/
def countQ (ps : List (String × Player)) (q : Player → Bool) : Nat :=
  (ps.filter (fun kv => q kv.2)).length

/-- Number of alive players whose recorded vote is a given target. -/
def votersFor (room : GameRoom) (t : String) : Nat :=
  countQ room.players (fun p => p.isAlive && p.votedFor == t)

/-- Number of alive players with any recorded vote. -/
def votedCount (room : GameRoom) : Nat :=
  countQ room.players (fun p => p.isAlive && p.votedFor != "")

/-- Per-target accuracy of the live tally: every nonempty target id is
tallied exactly as often as it has living voters. -/
def tallyAccurate (room : GameRoom) : Prop :=
  ∀ t : String, t ≠ "" → lookupVote room.voteResults t = (votersFor room t : Int)

/-- The spec's voting-phase equation: the tally total equals the number of
alive players with a recorded vote. -/
def sumInvariant (room : GameRoom) : Prop :=
  voteSum room.voteResults = (votedCount room : Int)

instance (room : GameRoom) : Decidable (sumInvariant room) :=
  decidable_of_iff (voteSum room.voteResults = (votedCount room : Int)) Iff.rfl

/-- Structural well-formedness of the embedded maps: no duplicate keys and
no empty-string keys, as produced by the Go code (player ids are UUIDs,
tally keys are checked nonempty before insertion). -/
def roomWF (room : GameRoom) : Prop :=
  (room.players.map Prod.fst).Nodup ∧ (∀ kv ∈ room.players, kv.1 ≠ "") ∧
    (room.voteResults.map Prod.fst).Nodup ∧ (∀ kv ∈ room.voteResults, kv.1 ≠ "")

instance (room : GameRoom) : Decidable (roomWF room) :=
  decidable_of_iff
    ((room.players.map Prod.fst).Nodup ∧ (∀ kv ∈ room.players, kv.1 ≠ "") ∧
      (room.voteResults.map Prod.fst).Nodup ∧ (∀ kv ∈ room.voteResults, kv.1 ≠ ""))
    Iff.rfl

/-- Multiset (as a list) of the roles currently assigned in a room. -/
def assignedRoles (room : GameRoom) : List Role :=
  room.players.filterMap (fun kv => kv.2.role)

/-- Tied vote: four alive players, two votes on "a" and two on "b". -/
def tieRoom : GameRoom :=
  { mkRoom "t"
      [("t", { mkPlayer "t" "tu" (some Role.tiger) true with votedFor := "a" }),
       ("a", { mkPlayer "a" "au" (some Role.villager) true with votedFor := "b" }),
       ("b", { mkPlayer "b" "bu" (some Role.villager) true with votedFor := "a" }),
       ("c", { mkPlayer "c" "cu" (some Role.villager) true with votedFor := "b" })]
      GamePhase.voting with
      voteResults := [("a", 2), ("b", 2)], round := 1 }

/-- Room reached from `tieRoom` by the Voting-to-Night transition. -/
def tieAfter : GameRoom :=
  match moveToNextPhase tieRoom 300 with
  | some (.ok (_, r)) => r
  | _ => tieRoom

/-- Waiting room with five players and host p1. -/
def waitRoom5 : GameRoom :=
  mkRoom "p1"
    [("p1", mkPlayer "p1" "u1" none true),
     ("p2", mkPlayer "p2" "u2" none true),
     ("p3", mkPlayer "p3" "u3" none true),
     ("p4", mkPlayer "p4" "u4" none true),
     ("p5", mkPlayer "p5" "u5" none true)]
    GamePhase.waiting

/-- Room whose game already started: five players with roles, Day phase,
round 3. -/
def c3dayRoom : GameRoom :=
  { mkRoom "p1"
      [("p1", mkPlayer "p1" "u1" (some Role.tiger) true),
       ("p2", mkPlayer "p2" "u2" (some Role.hunter) true),
       ("p3", mkPlayer "p3" "u3" (some Role.shaman) true),
       ("p4", mkPlayer "p4" "u4" (some Role.villager) true),
       ("p5", mkPlayer "p5" "u5" (some Role.villager) true)]
      GamePhase.day with
      round := 3, phaseEndTime := some 900, startedAt := some 100 }

/-- Room produced by a start_game sent by non-host p2 while `c3dayRoom`
is already in the Day phase. -/
def c3after : GameRoom :=
  (handleStartGame "p2" c3dayRoom 1000 (buildRoles 5)).toOption.getD c3dayRoom

/-- Started room produced by the start_game handler on `waitRoom5` (shuffle
outcome fixed to the unshuffled role list). -/
def c2room : GameRoom :=
  (handleStartGame "p1" waitRoom5 50 (buildRoles 5)).toOption.getD waitRoom5

/-- Day-phase room used for the non-host skip_phase run. -/
def c4room : GameRoom :=
  { mkRoom "p1"
      [("p1", mkPlayer "p1" "u1" (some Role.tiger) true),
       ("p2", mkPlayer "p2" "u2" (some Role.hunter) true),
       ("p3", mkPlayer "p3" "u3" (some Role.shaman) true),
       ("p4", mkPlayer "p4" "u4" (some Role.villager) true),
       ("p5", mkPlayer "p5" "u5" (some Role.villager) true)]
      GamePhase.day with
      round := 2, phaseEndTime := some 500, startedAt := some 10 }

/-- Room after the non-host skip_phase run on `c4room`. -/
def c4after : GameRoom :=
  match handleSkipPhase "p2" c4room 600 with
  | some (.ok (_, r)) => r
  | _ => c4room

/-- Night room in which the hunter protects the tiger's target. -/
def c5room : GameRoom :=
  { mkRoom "h"
      [("h", { mkPlayer "h" "hu" (some Role.hunter) true with canShoot := true }),
       ("t", mkPlayer "t" "tu" (some Role.tiger) true),
       ("s", mkPlayer "s" "su" (some Role.shaman) true),
       ("v1", mkPlayer "v1" "vu1" (some Role.villager) true),
       ("v2", mkPlayer "v2" "vu2" (some Role.villager) true)]
      GamePhase.night with
      tigerTarget := "v1", hunterProtection := "v1", shamanVision := "t", round := 1 }

/-- Voting room with a live hunter, a voter and a bystander; the tally
matches the single recorded vote. -/
def c9room : GameRoom :=
  { mkRoom "h"
      [("h", { mkPlayer "h" "hu" (some Role.hunter) true with canShoot := true }),
       ("a", { mkPlayer "a" "au" (some Role.villager) true with votedFor := "b" }),
       ("b", mkPlayer "b" "bu" (some Role.villager) true),
       ("t", mkPlayer "t" "tu" (some Role.tiger) true)]
      GamePhase.voting with
      voteResults := [("b", 1)], round := 1 }

/-- Room after the hunter shoots the voter in `c9room`. -/
def c9after : GameRoom :=
  (hunterShoot c9room "h" "a").toOption.getD c9room

/-- Voting room used to exercise one vote step from an accurate state. -/
def c9wroom : GameRoom :=
  { mkRoom "a"
      [("a", mkPlayer "a" "au" (some Role.villager) true),
       ("b", mkPlayer "b" "bu" (some Role.villager) true),
       ("t", mkPlayer "t" "tu" (some Role.tiger) true)]
      GamePhase.voting with round := 1 }

/-- Room after player a votes for b in `c9wroom`. -/
def c9wafter : GameRoom :=
  (vote c9wroom "a" "b").toOption.getD c9wroom

/-- Room with no pending hunter retaliation and a living hunter. -/
def c6room : GameRoom :=
  { mkRoom "h"
      [("h", { mkPlayer "h" "hu" (some Role.hunter) true with canShoot := true }),
       ("x", mkPlayer "x" "xu" (some Role.villager) true),
       ("t", mkPlayer "t" "tu" (some Role.tiger) true)]
      GamePhase.day with round := 2 }

/-- Room after the unauthorized hunter shot on `c6room`. -/
def c6after : GameRoom :=
  (hunterShoot c6room "h" "x").toOption.getD c6room

/-- Night room whose shaman looks at a still-hidden alpha tiger. -/
def c7room : GameRoom :=
  { mkRoom "al"
      [("al", mkPlayer "al" "alu" (some Role.alphaTiger) true),
       ("ti", mkPlayer "ti" "tiu" (some Role.tiger) true),
       ("sh", mkPlayer "sh" "shu" (some Role.shaman) true),
       ("hu", { mkPlayer "hu" "huu" (some Role.hunter) true with canShoot := true }),
       ("v1", mkPlayer "v1" "v1u" (some Role.villager) true),
       ("v2", mkPlayer "v2" "v2u" (some Role.villager) true),
       ("v3", mkPlayer "v3" "v3u" (some Role.villager) true)]
      GamePhase.night with
      shamanVision := "al", round := 2 }

/-- Night result produced on `c7room`. -/
def c7res : NightResult :=
  match processNightPhase c7room with
  | some pr => pr.1
  | none => ⟨"", false, false, "", ""⟩

/-- Room left behind by night resolution on `c7room`. -/
def c7room1 : GameRoom :=
  match processNightPhase c7room with
  | some pr => pr.2
  | none => c7room

/-- Night room whose alpha tiger curses an id that no player holds. -/
def c10room : GameRoom :=
  { mkRoom "al"
      [("al", mkPlayer "al" "alu" (some Role.alphaTiger) true),
       ("ti", mkPlayer "ti" "tiu" (some Role.tiger) true),
       ("sh", mkPlayer "sh" "shu" (some Role.shaman) true),
       ("hu", { mkPlayer "hu" "huu" (some Role.hunter) true with canShoot := true }),
       ("v1", mkPlayer "v1" "v1u" (some Role.villager) true),
       ("v2", mkPlayer "v2" "v2u" (some Role.villager) true),
       ("v3", mkPlayer "v3" "v3u" (some Role.villager) true)]
      GamePhase.night with
      nightActionOrder := [Role.hunter, Role.tiger, Role.alphaTiger, Role.shaman],
      currentNightRole := some Role.alphaTiger,
      nightActionsCompleted := ["hu", "ti"],
      round := 2 }

theorem lookupP_mem {ps : List (String × Player)} {pid : String} {p : Player}
    (h : lookupP ps pid = some p) : (pid, p) ∈ ps := by
  induction ps with
  | nil => simp [lookupP] at h
  | cons kv rest ih =>
    by_cases hk : kv.1 = pid
    · simp [lookupP, hk] at h
      have hkv : kv = (pid, p) := by
        obtain ⟨k1, k2⟩ := kv
        simp at hk h
        simp [hk, h]
      rw [hkv]
      exact List.mem_cons_self _ _
    · simp [lookupP, hk] at h
      right
      exact ih h

theorem lookupP_updateList (ps : List (String × Player)) (pid : String)
    (p' : Player) (u : String) :
    lookupP (updateList ps pid p') u =
      if u = pid then (lookupP ps pid).map (fun _ => p') else lookupP ps u := by
  induction ps with
  | nil => by_cases h : u = pid <;> simp [updateList, lookupP, h]
  | cons kv rest ih =>
    by_cases hk : kv.1 = pid
    · by_cases hu : u = pid
      · simp [updateList, lookupP, hk, hu]
      · have : ¬(pid = u) := fun h => hu h.symm
        simp [updateList, lookupP, hk, hu, this] at ih ⊢
        simpa [updateList] using ih
    · by_cases hu : u = pid
      · have : ¬(kv.1 = u) := by rw [hu]; exact hk
        simp [updateList, lookupP, hk, hu, this] at ih ⊢
        simpa [updateList] using ih
      · by_cases hku : kv.1 = u
        · simp [updateList, lookupP, hk, hu, hku]
        · simp [updateList, lookupP, hk, hu, hku] at ih ⊢
          simpa [updateList] using ih

theorem lookupP_mapVal (ps : List (String × Player)) (g : Player → Player)
    (u : String) :
    lookupP (ps.map (fun kv => (kv.1, g kv.2))) u = (lookupP ps u).map g := by
  induction ps with
  | nil => simp [lookupP]
  | cons kv rest ih =>
    by_cases hk : kv.1 = u <;> simp [lookupP, hk, ih]

theorem updateList_notMem (ps : List (String × Player)) (pid : String)
    (p' : Player) (h : pid ∉ ps.map Prod.fst) : updateList ps pid p' = ps := by
  induction ps with
  | nil => rfl
  | cons kv rest ih =>
    have h1 : pid ∉ rest.map Prod.fst := fun hm => h (by simp [hm])
    have hk : ¬(kv.1 = pid) := fun he => h (by simp [he])
    simp [updateList, hk]
    simpa [updateList] using ih h1

theorem keys_updateList (ps : List (String × Player)) (pid : String) (p' : Player) :
    (updateList ps pid p').map Prod.fst = ps.map Prod.fst := by
  induction ps with
  | nil => rfl
  | cons kv rest ih =>
    by_cases hk : kv.1 = pid <;> simp [updateList, hk] at ih ⊢ <;> simpa [updateList] using ih

theorem mem_insertId_self (l : List String) (pid : String) : pid ∈ insertId l pid := by
  by_cases h : pid ∈ l <;> simp [insertId, h]

theorem lookupVote_setVote (l : List (String × Int)) (t : String) (v : Int)
    (u : String) :
    lookupVote (setVote l t v) u = if u = t then v else lookupVote l u := by
  induction l with
  | nil =>
    by_cases h : u = t
    · simp [setVote, lookupVote, h]
    · have h2 : ¬(t = u) := fun he => h he.symm
      simp [setVote, lookupVote, h, h2]
  | cons kv rest ih =>
    by_cases hk : kv.1 = t
    · have h1 : setVote (kv :: rest) t v = (t, v) :: rest := by simp [setVote, hk]
      rw [h1]
      by_cases hu : u = t
      · simp [lookupVote, hu]
      · have h2 : ¬(t = u) := fun he => hu he.symm
        have h3 : ¬(kv.1 = u) := by rw [hk]; exact h2
        simp [lookupVote, hu, h2, h3]
    · have h1 : setVote (kv :: rest) t v = kv :: setVote rest t v := by
        simp [setVote, hk]
      rw [h1]
      by_cases hku : kv.1 = u
      · have hut : ¬(u = t) := fun he => hk (hku.trans he)
        simp [lookupVote, hku, hut]
      · simp [lookupVote, hku, ih]

theorem lookupVote_eraseVote (l : List (String × Int)) (t u : String) :
    lookupVote (eraseVote l t) u = if u = t then 0 else lookupVote l u := by
  induction l with
  | nil => by_cases h : u = t <;> simp [eraseVote, lookupVote, h]
  | cons kv rest ih =>
    by_cases hk : kv.1 = t
    · have h1 : eraseVote (kv :: rest) t = eraseVote rest t := by
        simp [eraseVote, hk]
      rw [h1, ih]
      by_cases hu : u = t
      · simp [hu]
      · have h3 : ¬(kv.1 = u) := by rw [hk]; exact fun he => hu he.symm
        simp [lookupVote, hu, h3]
    · have h1 : eraseVote (kv :: rest) t = kv :: eraseVote rest t := by
        simp [eraseVote, hk]
      rw [h1]
      by_cases hku : kv.1 = u
      · have hut : ¬(u = t) := fun he => hk (hku.trans he)
        simp [lookupVote, hku, hut]
      · simp [lookupVote, hku, ih]

theorem voteSum_setVote (l : List (String × Int)) (t : String) (v : Int) :
    voteSum (setVote l t v) = voteSum l + v - lookupVote l t := by
  induction l with
  | nil => simp [setVote, voteSum, lookupVote]
  | cons kv rest ih =>
    by_cases hk : kv.1 = t
    · have h1 : setVote (kv :: rest) t v = (t, v) :: rest := by simp [setVote, hk]
      rw [h1]
      simp [voteSum, lookupVote, hk]
      ring
    · have h1 : setVote (kv :: rest) t v = kv :: setVote rest t v := by
        simp [setVote, hk]
      rw [h1]
      simp only [voteSum, List.map_cons, List.sum_cons, lookupVote, if_neg hk]
      simp only [voteSum] at ih
      omega

theorem lookupVote_notMem (l : List (String × Int)) (t : String)
    (h : t ∉ l.map Prod.fst) : lookupVote l t = 0 := by
  induction l with
  | nil => rfl
  | cons kv rest ih =>
    have h1 : t ∉ rest.map Prod.fst := fun hm => h (by simp [hm])
    have hk : ¬(kv.1 = t) := fun he => h (by simp [he])
    simp [lookupVote, hk]
    exact ih h1

theorem voteSum_eraseVote (l : List (String × Int)) (t : String)
    (hnd : (l.map Prod.fst).Nodup) :
    voteSum (eraseVote l t) = voteSum l - lookupVote l t := by
  induction l with
  | nil => simp [eraseVote, voteSum, lookupVote]
  | cons kv rest ih =>
    rw [List.map_cons, List.nodup_cons] at hnd
    by_cases hk : kv.1 = t
    · have hnm : t ∉ rest.map Prod.fst := hk ▸ hnd.1
      have her : eraseVote rest t = rest := by
        unfold eraseVote
        apply List.filter_eq_self.mpr
        intro kv2 hkv2
        have : ¬(kv2.1 = t) := fun he =>
          hnm (by simpa [he] using List.mem_map_of_mem Prod.fst hkv2)
        simpa using this
      have h1 : eraseVote (kv :: rest) t = rest := by
        have h2 : eraseVote (kv :: rest) t = eraseVote rest t := by
          simp [eraseVote, hk]
        rw [h2, her]
      rw [h1]
      simp [voteSum, lookupVote, hk]
    · have h1 : eraseVote (kv :: rest) t = kv :: eraseVote rest t := by
        simp [eraseVote, hk]
      rw [h1]
      simp only [voteSum, List.map_cons, List.sum_cons, lookupVote, if_neg hk]
      have h2 := ih hnd.2
      simp only [voteSum] at h2
      omega

theorem keys_setVote (l : List (String × Int)) (t : String) (v : Int) :
    (setVote l t v).map Prod.fst =
      if t ∈ l.map Prod.fst then l.map Prod.fst else l.map Prod.fst ++ [t] := by
  induction l with
  | nil => simp [setVote]
  | cons kv rest ih =>
    by_cases hk : kv.1 = t
    · have h1 : setVote (kv :: rest) t v = (t, v) :: rest := by simp [setVote, hk]
      rw [h1]
      have hm : t ∈ (kv :: rest).map Prod.fst := by
        rw [List.map_cons, ← hk]
        exact List.mem_cons_self _ _
      simp [hm, hk]
    · have h1 : setVote (kv :: rest) t v = kv :: setVote rest t v := by
        simp [setVote, hk]
      rw [h1]
      by_cases hm : t ∈ rest.map Prod.fst
      · have hm2 : t ∈ (kv :: rest).map Prod.fst := by simp [hm]
        simp [hm, hm2, ih]
      · have hm2 : t ∉ (kv :: rest).map Prod.fst := by
          simp [hm]
          exact fun he => hk he.symm
        have hk2 : ¬(t = kv.1) := fun he => hk he.symm
        simp [hm, hm2, hk2, ih]

theorem nodup_keys_setVote (l : List (String × Int)) (t : String) (v : Int)
    (hnd : (l.map Prod.fst).Nodup) : ((setVote l t v).map Prod.fst).Nodup := by
  rw [keys_setVote]
  by_cases hm : t ∈ l.map Prod.fst
  · simpa [hm] using hnd
  · simp [hm, List.nodup_append, hnd]

theorem nodup_keys_eraseVote (l : List (String × Int)) (t : String)
    (hnd : (l.map Prod.fst).Nodup) : ((eraseVote l t).map Prod.fst).Nodup := by
  have hsub : ((eraseVote l t).map Prod.fst).Sublist (l.map Prod.fst) :=
    List.Sublist.map Prod.fst (List.filter_sublist l)
  exact hnd.sublist hsub

theorem mem_setVote (l : List (String × Int)) (t : String) (v : Int)
    (kv : String × Int) (h : kv ∈ setVote l t v) : kv.1 = t ∨ kv ∈ l := by
  induction l with
  | nil => simp [setVote] at h; simp [h]
  | cons kv2 rest ih =>
    by_cases hk : kv2.1 = t
    · simp [setVote, hk] at h
      rcases h with h | h
      · simp [h]
      · right; simp [h]
    · simp [setVote, hk] at h
      rcases h with h | h
      · right; simp [h]
      · rcases ih h with h2 | h2
        · simp [h2]
        · right; simp [h2]

theorem mem_eraseVote (l : List (String × Int)) (t : String)
    (kv : String × Int) (h : kv ∈ eraseVote l t) : kv ∈ l :=
  List.mem_of_mem_filter h

theorem countQ_cons (kv : String × Player) (rest : List (String × Player))
    (q : Player → Bool) :
    countQ (kv :: rest) q = (if q kv.2 then 1 else 0) + countQ rest q := by
  by_cases h : q kv.2 <;> simp [countQ, List.filter, h] <;> omega

theorem countQ_updateList (ps : List (String × Player)) (pid : String)
    (p p' : Player) (q : Player → Bool)
    (hnd : (ps.map Prod.fst).Nodup) (hl : lookupP ps pid = some p) :
    countQ (updateList ps pid p') q + (if q p then 1 else 0) =
      countQ ps q + (if q p' then 1 else 0) := by
  induction ps with
  | nil => simp [lookupP] at hl
  | cons kv rest ih =>
    rw [List.map_cons, List.nodup_cons] at hnd
    by_cases hk : kv.1 = pid
    · simp [lookupP, hk] at hl
      have hnm : pid ∉ rest.map Prod.fst := hk ▸ hnd.1
      have hrest : updateList rest pid p' = rest := updateList_notMem rest pid p' hnm
      have hhd : updateList (kv :: rest) pid p' = (pid, p') :: rest := by
        simp [updateList, hk]
        simpa [updateList] using hrest
      rw [hhd]
      have e1 : countQ ((pid, p') :: rest) q = (if q p' then 1 else 0) + countQ rest q := by
        simpa using countQ_cons (pid, p') rest q
      rw [e1, countQ_cons, hl]
      omega
    · simp [lookupP, hk] at hl
      have hhd : updateList (kv :: rest) pid p' = kv :: updateList rest pid p' := by
        simp [updateList, hk]
      rw [hhd, countQ_cons, countQ_cons]
      have := ih hnd.2 hl
      omega

theorem countQ_pos (ps : List (String × Player)) (pid : String) (p : Player)
    (q : Player → Bool) (hl : lookupP ps pid = some p) (hq : q p = true) :
    1 ≤ countQ ps q := by
  have hm : (pid, p) ∈ ps := lookupP_mem hl
  have : (pid, p) ∈ ps.filter (fun kv => q kv.2) := List.mem_filter.mpr ⟨hm, hq⟩
  have hlen := List.length_pos.mpr (List.ne_nil_of_mem this)
  simpa [countQ] using hlen

theorem selFold_fst_le (l : List (String × Int)) (acc : Int × String) :
    acc.1 ≤ (l.foldl (fun a kv => if a.1 < kv.2 then (kv.2, kv.1) else a) acc).1 := by
  induction l generalizing acc with
  | nil => exact le_refl _
  | cons kv rest ih =>
    refine le_trans ?_ (ih (if acc.1 < kv.2 then (kv.2, kv.1) else acc))
    by_cases h : acc.1 < kv.2
    · simp [h]
      exact le_of_lt h
    · simp [h]

theorem selFold_le (l : List (String × Int)) (acc : Int × String) :
    ∀ kv ∈ l, kv.2 ≤ (l.foldl (fun a kv => if a.1 < kv.2 then (kv.2, kv.1) else a) acc).1 := by
  induction l generalizing acc with
  | nil => intro kv h; simp at h
  | cons kv0 rest ih =>
    intro kv h
    rcases List.mem_cons.mp h with h | h
    · subst h
      simp only [List.foldl_cons]
      refine le_trans ?_ (selFold_fst_le rest _)
      by_cases h2 : acc.1 < kv.2
      · simp [h2]
      · simp [h2]
        omega
    · simpa using ih _ kv h

theorem selFold_mem (l : List (String × Int)) (acc : Int × String) :
    (l.foldl (fun a kv => if a.1 < kv.2 then (kv.2, kv.1) else a) acc) = acc ∨
      ∃ kv ∈ l,
        (l.foldl (fun a kv => if a.1 < kv.2 then (kv.2, kv.1) else a) acc) = (kv.2, kv.1) := by
  induction l generalizing acc with
  | nil => exact Or.inl rfl
  | cons kv0 rest ih =>
    simp only [List.foldl_cons]
    rcases ih (if acc.1 < kv0.2 then (kv0.2, kv0.1) else acc) with h | ⟨kv, hm, he⟩
    · rw [h]
      by_cases h2 : acc.1 < kv0.2
      · right
        exact ⟨kv0, List.mem_cons_self _ _, by simp [h2]⟩
      · left
        simp [h2]
    · right
      exact ⟨kv, List.mem_cons_of_mem _ hm, he⟩

theorem selectVictim_le (l : List (String × Int)) :
    ∀ kv ∈ l, kv.2 ≤ (selectVictim l).1 :=
  selFold_le l (0, "")

theorem selectVictim_mem (l : List (String × Int))
    (hpos : 0 < (selectVictim l).1) :
    ((selectVictim l).2, (selectVictim l).1) ∈ l := by
  rcases selFold_mem l (0, "") with h | ⟨kv, hm, he⟩
  · rw [show selectVictim l = l.foldl (fun a kv => if a.1 < kv.2 then (kv.2, kv.1) else a) (0, "")
        from rfl] at hpos
    rw [h] at hpos
    exact absurd hpos (by norm_num)
  · rw [show selectVictim l = l.foldl (fun a kv => if a.1 < kv.2 then (kv.2, kv.1) else a) (0, "")
        from rfl, he]
    simpa using hm

theorem nightKillStep_fields (room : GameRoom) (res1 : NightResult) (r1 : GameRoom)
    (h : nightKillStep room = some (res1, r1)) :
    r1.shamanVision = room.shamanVision ∧
      (r1.players = room.players ∨
        ∃ v, lookupP room.players room.tigerTarget = some v ∧
          r1.players = updateList room.players room.tigerTarget { v with isAlive := false }) := by
  unfold nightKillStep at h
  repeat' split at h
  all_goals
    first
      | exact Option.noConfusion h
      | injection h with hAB
  all_goals injection hAB with hres hr1
  all_goals subst hr1
  all_goals
    first
      | exact ⟨rfl, Or.inl rfl⟩
      | exact ⟨rfl, Or.inr ⟨_, by assumption, rfl⟩⟩

theorem nightKillStep_lookup_preserved (room : GameRoom) (res1 : NightResult)
    (r1 : GameRoom) (pid : String)
    (h : nightKillStep room = some (res1, r1)) :
    (lookupP r1.players pid).map (fun p => (p.isCursed, p.role, p.hasUsedCurse, p.username)) =
      (lookupP room.players pid).map (fun p => (p.isCursed, p.role, p.hasUsedCurse, p.username)) := by
  rcases (nightKillStep_fields room res1 r1 h).2 with hp | ⟨v, hv, hp⟩
  · rw [hp]
  · rw [hp, lookupP_updateList]
    by_cases he : pid = room.tigerTarget
    · rw [if_pos he, he, hv]
      simp
    · rw [if_neg he]

theorem visionStep_keeps (room : GameRoom) (res : NightResult) :
    (visionStep room res).killed = res.killed ∧
    (visionStep room res).protectedFlag = res.protectedFlag ∧
    (visionStep room res).shamanSaved = res.shamanSaved := by
  unfold visionStep
  repeat' split
  all_goals exact ⟨rfl, rfl, rfl⟩

/-- Claim C1, counterexample: in `tieRoom` the targets "a" and "b" share
the strictly greatest vote count (2 each, all four players alive), yet the
Voting-to-Night transition eliminates "a" — the tied entry iterated first —
instead of eliminating nobody.  The tally is cleared and the phase still
advances to Night. -/
theorem voteTie_c1_counterexample :
    tieRoom.voteResults = [("a", 2), ("b", 2)] ∧
    tieRoom.players.all (fun kv => kv.2.isAlive) = true ∧
    moveToNextPhase tieRoom 300 = some (.ok (none, tieAfter)) ∧
    tieAfter.phase = GamePhase.night ∧
    aliveOf tieAfter "a" = some false ∧
    tieAfter.voteResults = [] := by
  decide

/-- Claim C2: the room snapshot broadcast on game_started serializes every
player's role and private flags to every recipient while the game is
running.  In the started room `c2room` (phase Day, not Ended), the payload
delivered to p2 carries p1's role, and the payload delivered to p3 carries
p2's private canShoot flag. -/
theorem stateVisibility_c2_bug :
    c2room.phase = GamePhase.day ∧
    ("role", "tiger") ∈ payloadFieldsOf (deliveredPlayersPayload c2room "p2") "p1" ∧
    ("role", "shaman") ∈ payloadFieldsOf (deliveredPlayersPayload c2room "p2") "p3" ∧
    ("canShoot", "true") ∈ payloadFieldsOf (deliveredPlayersPayload c2room "p3") "p2" := by
  decide

/-- Claim C3, counterexample: a start_game sent by non-host p2 while
`c3dayRoom` is already in the Day phase (round 3) succeeds — no
NotAuthorized and no InvalidPhase error — and the game is restarted with
round reset to 1. -/
theorem startGame_c3_counterexample :
    c3dayRoom.hostId = "p1" ∧
    c3dayRoom.phase = GamePhase.day ∧
    c3dayRoom.round = 3 ∧
    handleStartGame "p2" c3dayRoom 1000 (buildRoles 5) = .ok c3after ∧
    c3after.phase = GamePhase.day ∧
    c3after.round = 1 := by
  decide

/-- Claim C4: a skip_phase from non-host p2 is routed to MoveToNextPhase
with no host check, so it advances `c4room` from Day to Voting instead of
leaving the state byte-identical; the unused SkipPhase function would have
refused the same request. -/
theorem skipPhase_c4_bug :
    c4room.hostId = "p1" ∧
    c4room.phase = GamePhase.day ∧
    handleSkipPhase "p2" c4room 600 = some (.ok (none, c4after)) ∧
    c4after.phase = GamePhase.voting ∧
    c4after ≠ c4room ∧
    skipPhase c4room "p2" = .error (.msg "only host can skip phase") := by
  decide

/-- Claim C6, counterexample: in `c6room` no hunter retaliation is pending
(waitingHunterShoot false, deadHunterId empty) and the hunter h is alive,
yet hunterShoot succeeds, kills the living target x, and leaves the
hunter's canShoot flag set. -/
theorem hunterShoot_c6_counterexample :
    c6room.waitingHunterShoot = false ∧
    c6room.deadHunterId = "" ∧
    aliveOf c6room "h" = some true ∧
    hunterShoot c6room "h" "x" = .ok c6after ∧
    aliveOf c6after "x" = some false ∧
    (lookupP c6after.players "h").map Player.canShoot = some true := by
  decide

/-- Claim C9, counterexample: `c9room` is in the Voting phase and satisfies
the tally equation (one vote recorded, one tallied).  The hunterShoot
operation — reachable during Voting — kills the voter a, leaving a's vote
tallied while a is no longer an alive voter, so the equation fails
afterwards. -/
theorem voteInvariant_c9_counterexample :
    c9room.phase = GamePhase.voting ∧
    sumInvariant c9room ∧
    hunterShoot c9room "h" "a" = .ok c9after ∧
    c9after.phase = GamePhase.voting ∧
    ¬ sumInvariant c9after := by
  decide

/-- Claim C3 as amended: startGame ignores both the requester and the
phase.  It succeeds for any sender whenever the room holds at least 5
players, entering Day with round 1 and a 120-second timer; fewer than 5
players yields NotEnoughPlayers, and the error is returned before any
write, leaving the room unchanged. -/
theorem startGame_c3_amended (room : GameRoom) (senderId : String) (now : Nat)
    (shuffled : List Role) :
    (room.players.length < 5 →
      handleStartGame senderId room now shuffled = .error GameError.notEnoughPlayers) ∧
    (5 ≤ room.players.length →
      ∃ r, handleStartGame senderId room now shuffled = .ok r ∧
        r.phase = GamePhase.day ∧ r.round = 1 ∧
        r.phaseEndTime = some (now + 120) ∧ r.startedAt = some now) := by
  constructor
  · intro h
    simp [handleStartGame, startGame, h]
  · intro h
    have h2 : ¬(room.players.length < 5) := by omega
    unfold handleStartGame startGame
    rw [if_neg h2]
    exact ⟨_, rfl, rfl, rfl, rfl, rfl⟩

/-- Witness for the amended claim C3 at the concrete five-player waiting
room. -/
theorem startGame_c3_amended_witness :
    5 ≤ waitRoom5.players.length ∧
    (∃ r, handleStartGame "p1" waitRoom5 50 (buildRoles 5) = .ok r ∧
      r.phase = GamePhase.day ∧ r.round = 1 ∧
      r.phaseEndTime = some (50 + 120) ∧ r.startedAt = some 50) :=
  ⟨by decide, (startGame_c3_amended waitRoom5 "p1" 50 (buildRoles 5)).2 (by decide)⟩

/-- Claim C6 as amended: hunterShoot succeeds exactly when the actor exists
with role Hunter and the target exists alive — waitingHunterShoot,
deadHunterId and the actor's own alive flag are never consulted.  On
success the target dies, the waiting state is reset, but no canShoot flag
is cleared; every failure is an error returned before any write, leaving
the room unchanged. -/
theorem hunterShoot_c6_amended (room : GameRoom) (hunterId targetId : String) :
    ((∃ r, hunterShoot room hunterId targetId = .ok r) ↔
      ((∃ p, lookupP room.players hunterId = some p ∧ p.role = some Role.hunter) ∧
        (∃ t, lookupP room.players targetId = some t ∧ t.isAlive = true))) ∧
    (∀ r, hunterShoot room hunterId targetId = .ok r →
      aliveOf r targetId = some false ∧
      r.waitingHunterShoot = false ∧ r.deadHunterId = "" ∧
      r.phase = room.phase ∧
      (∀ pid, (lookupP r.players pid).map Player.canShoot =
        (lookupP room.players pid).map Player.canShoot)) := by
  cases hh : lookupP room.players hunterId with
  | none =>
    have he : hunterShoot room hunterId targetId = .error (.msg "not a hunter") := by
      unfold hunterShoot
      rw [hh]
    refine ⟨⟨?_, ?_⟩, ?_⟩
    · rintro ⟨r, hr⟩
      rw [he] at hr
      exact Except.noConfusion hr
    · rintro ⟨⟨p, hp, _⟩, _⟩
      exact Option.noConfusion hp
    · intro r hr
      rw [he] at hr
      exact Except.noConfusion hr
  | some hunter =>
    by_cases hrole : hunter.role = some Role.hunter
    · cases ht : lookupP room.players targetId with
      | none =>
        have he : hunterShoot room hunterId targetId = .error (.msg "invalid target") := by
          unfold hunterShoot
          rw [hh, ht]
          simp [hrole]
        refine ⟨⟨?_, ?_⟩, ?_⟩
        · rintro ⟨r, hr⟩
          rw [he] at hr
          exact Except.noConfusion hr
        · rintro ⟨_, ⟨t, htp, _⟩⟩
          exact Option.noConfusion htp
        · intro r hr
          rw [he] at hr
          exact Except.noConfusion hr
      | some target =>
        by_cases halive : target.isAlive = true
        · have hok : hunterShoot room hunterId targetId =
              .ok { setPlayer room targetId { target with isAlive := false } with
                      waitingHunterShoot := false, deadHunterId := "" } := by
            unfold hunterShoot
            rw [hh, ht]
            simp [hrole, halive]
          refine ⟨⟨fun _ => ⟨⟨hunter, rfl, hrole⟩, ⟨target, rfl, halive⟩⟩,
                   fun _ => ⟨_, hok⟩⟩, ?_⟩
          intro r hr
          rw [hok] at hr
          have hr2 := Except.ok.inj hr
          subst hr2
          refine ⟨?_, rfl, rfl, rfl, ?_⟩
          · show (lookupP (updateList room.players targetId
              { target with isAlive := false }) targetId).map Player.isAlive = some false
            rw [lookupP_updateList]
            simp [ht]
          · intro pid
            show (lookupP (updateList room.players targetId
              { target with isAlive := false }) pid).map Player.canShoot = _
            rw [lookupP_updateList]
            by_cases hp : pid = targetId
            · rw [if_pos hp, hp, ht]
              simp
            · rw [if_neg hp]
        · have he : hunterShoot room hunterId targetId = .error (.msg "invalid target") := by
            unfold hunterShoot
            rw [hh, ht]
            simp [hrole, halive]
          refine ⟨⟨?_, ?_⟩, ?_⟩
          · rintro ⟨r, hr⟩
            rw [he] at hr
            exact Except.noConfusion hr
          · rintro ⟨_, ⟨t, htp, hta⟩⟩
            have he2 : target = t := Option.some.inj htp
            subst he2
            exact absurd hta halive
          · intro r hr
            rw [he] at hr
            exact Except.noConfusion hr
    · have he : hunterShoot room hunterId targetId = .error (.msg "not a hunter") := by
        unfold hunterShoot
        rw [hh]
        simp [hrole]
      refine ⟨⟨?_, ?_⟩, ?_⟩
      · rintro ⟨r, hr⟩
        rw [he] at hr
        exact Except.noConfusion hr
      · rintro ⟨⟨p, hp, hpr⟩, _⟩
        have he2 : hunter = p := Option.some.inj hp
        subst he2
        exact absurd hpr hrole
      · intro r hr
        rw [he] at hr
        exact Except.noConfusion hr

/-- Witness for the amended claim C6 at the concrete room with a living
hunter and no pending retaliation. -/
theorem hunterShoot_c6_amended_witness :
    ((∃ r, hunterShoot c6room "h" "x" = .ok r) ↔
      ((∃ p, lookupP c6room.players "h" = some p ∧ p.role = some Role.hunter) ∧
        (∃ t, lookupP c6room.players "x" = some t ∧ t.isAlive = true))) ∧
    (∀ r, hunterShoot c6room "h" "x" = .ok r →
      aliveOf r "x" = some false ∧
      r.waitingHunterShoot = false ∧ r.deadHunterId = "" ∧
      r.phase = c6room.phase ∧
      (∀ pid, (lookupP r.players pid).map Player.canShoot =
        (lookupP c6room.players pid).map Player.canShoot)) :=
  hunterShoot_c6_amended c6room "h" "x"

/-- Claim C5: night resolution with a set tiger target that refers to a
known player.  If the hunter protected that target, the result is
protected with nobody's alive flag changed; else if the target is the
Shaman, a vision is set, and the seen player is an AlphaTiger with its
curse unspent, the shaman is lucky-saved and nobody dies; otherwise the
target dies and is reported as killed. -/
theorem nightKill_c5 (room : GameRoom) (victim : Player)
    (hT : room.tigerTarget ≠ "")
    (hv : lookupP room.players room.tigerTarget = some victim) :
    (room.hunterProtection = room.tigerTarget →
      ∃ res room1, processNightPhase room = some (res, room1) ∧
        res.protectedFlag = true ∧ res.killed = "" ∧
        ∀ pid, aliveOf room1 pid = aliveOf room pid) ∧
    (room.hunterProtection ≠ room.tigerTarget →
      victim.role = some Role.shaman → room.shamanVision ≠ "" →
      ∀ seen, lookupP room.players room.shamanVision = some seen →
        seen.role = some Role.alphaTiger → seen.hasUsedCurse = false →
        ∃ res room1, processNightPhase room = some (res, room1) ∧
          res.shamanSaved = true ∧ res.killed = "" ∧
          ∀ pid, aliveOf room1 pid = aliveOf room pid) ∧
    (room.hunterProtection ≠ room.tigerTarget →
      ¬(victim.role = some Role.shaman ∧ room.shamanVision ≠ "" ∧
        ∃ seen, lookupP room.players room.shamanVision = some seen ∧
          seen.role = some Role.alphaTiger ∧ seen.hasUsedCurse = false) →
      ∃ res room1, processNightPhase room = some (res, room1) ∧
        res.killed = room.tigerTarget ∧
        aliveOf room1 room.tigerTarget = some false) := by
  refine ⟨?_, ?_, ?_⟩
  · intro hp
    have hk : nightKillStep room = some (⟨"", true, false, "", ""⟩, room) := by
      simp only [nightKillStep]
      rw [if_neg hT, if_pos hp]
    have hp2 : processNightPhase room =
        some (visionStep room ⟨"", true, false, "", ""⟩,
          { room with tigerTarget := "", hunterProtection := "", shamanVision := "" }) := by
      unfold processNightPhase
      rw [hk]
    refine ⟨_, _, hp2, ?_, ?_, fun pid => rfl⟩
    · exact (visionStep_keeps room ⟨"", true, false, "", ""⟩).2.1
    · exact (visionStep_keeps room ⟨"", true, false, "", ""⟩).1
  · intro hp hshaman hsv seen hseen halpha hcurse
    have hk : nightKillStep room = some (⟨"", false, true, "", ""⟩, room) := by
      simp only [nightKillStep]
      rw [if_neg hT, if_neg hp]
      simp only [hv]
      rw [if_pos ⟨hshaman, hsv⟩]
      simp only [hseen]
      rw [if_pos ⟨halpha, hcurse⟩]
    have hp2 : processNightPhase room =
        some (visionStep room ⟨"", false, true, "", ""⟩,
          { room with tigerTarget := "", hunterProtection := "", shamanVision := "" }) := by
      unfold processNightPhase
      rw [hk]
    refine ⟨_, _, hp2, ?_, ?_, fun pid => rfl⟩
    · exact (visionStep_keeps room ⟨"", false, true, "", ""⟩).2.2
    · exact (visionStep_keeps room ⟨"", false, true, "", ""⟩).1
  · intro hp hnot
    have hk : nightKillStep room =
        some (⟨room.tigerTarget, false, false, "", ""⟩,
          setPlayer room room.tigerTarget { victim with isAlive := false }) := by
      simp only [nightKillStep]
      rw [if_neg hT, if_neg hp]
      simp only [hv]
      by_cases hguard : victim.role = some Role.shaman ∧ room.shamanVision ≠ ""
      · rw [if_pos hguard]
        cases hseen : lookupP room.players room.shamanVision with
        | none => simp only [hseen]
        | some seen =>
          have hns : ¬(seen.role = some Role.alphaTiger ∧ seen.hasUsedCurse = false) := by
            intro hcon
            exact hnot ⟨hguard.1, hguard.2, seen, hseen, hcon.1, hcon.2⟩
          simp only [hseen]
          rw [if_neg hns]
      · rw [if_neg hguard]
    have hp2 : processNightPhase room =
        some (visionStep (setPlayer room room.tigerTarget { victim with isAlive := false })
            ⟨room.tigerTarget, false, false, "", ""⟩,
          { setPlayer room room.tigerTarget { victim with isAlive := false } with
              tigerTarget := "", hunterProtection := "", shamanVision := "" }) := by
      unfold processNightPhase
      rw [hk]
    refine ⟨_, _, hp2, ?_, ?_⟩
    · exact (visionStep_keeps _ _).1
    · show (lookupP (updateList room.players room.tigerTarget
        { victim with isAlive := false }) room.tigerTarget).map Player.isAlive = some false
      rw [lookupP_updateList, if_pos rfl, hv]
      rfl

/-- Witness for claim C5 at `c5room`, where the hunter protects the
tiger's target v1. -/
theorem nightKill_c5_witness :
    c5room.tigerTarget ≠ "" ∧
    (c5room.hunterProtection = c5room.tigerTarget →
      ∃ res room1, processNightPhase c5room = some (res, room1) ∧
        res.protectedFlag = true ∧ res.killed = "" ∧
        ∀ pid, aliveOf room1 pid = aliveOf c5room pid) :=
  ⟨by decide,
   (nightKill_c5 c5room (mkPlayer "v1" "vu1" (some Role.villager) true)
      (by decide) (by decide)).1⟩

/-- Claim C7: when the shaman's vision is set and refers to a known player
t, night resolution reports visionResult "tiger" exactly when t is cursed,
or t is a Tiger, or t is an AlphaTiger whose curse is spent; in every
other case — in particular an uncursed AlphaTiger with its curse unspent —
it reports "human". -/
theorem shamanVision_c7 (room : GameRoom) (res : NightResult) (room1 : GameRoom)
    (t : Player)
    (h : processNightPhase room = some (res, room1))
    (hsv : room.shamanVision ≠ "")
    (ht : lookupP room.players room.shamanVision = some t) :
    (t.isCursed = true ∨ t.role = some Role.tiger ∨
        (t.role = some Role.alphaTiger ∧ t.hasUsedCurse = true) →
      res.visionResult = "tiger") ∧
    (t.isCursed = false → t.role ≠ some Role.tiger →
        ¬(t.role = some Role.alphaTiger ∧ t.hasUsedCurse = true) →
      res.visionResult = "human") := by
  unfold processNightPhase at h
  cases hk : nightKillStep room with
  | none =>
    rw [hk] at h
    exact Option.noConfusion h
  | some pr =>
    obtain ⟨res0, r1⟩ := pr
    rw [hk] at h
    injection h with h2
    injection h2 with hres hroom
    have hfields := nightKillStep_lookup_preserved room res0 r1 room.shamanVision hk
    have hsv1 : r1.shamanVision = room.shamanVision :=
      (nightKillStep_fields room res0 r1 hk).1
    rw [ht] at hfields
    cases hl : lookupP r1.players room.shamanVision with
    | none =>
      rw [hl] at hfields
      exact Option.noConfusion hfields
    | some t1 =>
      rw [hl] at hfields
      have hftup := Option.some.inj hfields
      have hc : t1.isCursed = t.isCursed := congrArg Prod.fst hftup
      have hrr : t1.role = t.role := congrArg (fun x => x.2.1) hftup
      have hu : t1.hasUsedCurse = t.hasUsedCurse := congrArg (fun x => x.2.2.1) hftup
      have hres2 : res.visionResult =
          (if t.isCursed then "tiger"
            else if t.role = some Role.alphaTiger then
              (if t.hasUsedCurse then "tiger" else "human")
            else if t.role = some Role.tiger then "tiger" else "human") := by
        rw [← hres]
        unfold visionStep
        rw [if_neg (hsv1 ▸ hsv), hsv1]
        simp only [hl]
        rw [hc, hrr, hu]
      constructor
      · intro hcond
        rcases hcond with hcu | hrole | ⟨hrole, hused⟩
        · rw [hres2, if_pos hcu]
        · by_cases hcu : t.isCursed
          · rw [hres2, if_pos hcu]
          · have hna : ¬(t.role = some Role.alphaTiger) := by
              rw [hrole]
              intro hcon
              exact Option.noConfusion hcon (fun he => Role.noConfusion he)
            rw [hres2, if_neg hcu, if_neg hna, if_pos hrole]
        · by_cases hcu : t.isCursed
          · rw [hres2, if_pos hcu]
          · rw [hres2, if_neg hcu, if_pos hrole, if_pos hused]
      · intro hcu hntiger hnalpha
        rw [hres2, if_neg (by simp [hcu])]
        by_cases ha : t.role = some Role.alphaTiger
        · have hnu : ¬(t.hasUsedCurse = true) := fun hused => hnalpha ⟨ha, hused⟩
          rw [if_pos ha, if_neg hnu]
        · rw [if_neg ha, if_neg hntiger]

/-- Witness for claim C7 at `c7room`: the shaman views the still-hidden
alpha tiger, which reads "human". -/
theorem shamanVision_c7_witness :
    c7room.shamanVision ≠ "" ∧ c7res.visionResult = "human" :=
  ⟨by decide,
   (shamanVision_c7 c7room c7res c7room1
      (mkPlayer "al" "alu" (some Role.alphaTiger) true)
      (by decide) (by decide) (by decide)).2 (by decide) (by decide) (by decide)⟩

theorem buildRoles_length (n : Nat) (h : 4 ≤ n) : (buildRoles n).length = n := by
  unfold buildRoles
  by_cases h7 : 7 ≤ n
  · simp [h7]
    omega
  · simp [h7]
    omega

theorem assignList_spec (ps : List (String × Player)) (rs : List Role)
    (hlen : rs.length = ps.length) :
    (assignList ps rs).filterMap (fun kv => kv.2.role) = rs ∧
    ∀ kv ∈ assignList ps rs, kv.2.isCursed = false ∧ kv.2.hasUsedCurse = false ∧
      kv.2.lastProtected = "" ∧ (kv.2.canShoot = true ↔ kv.2.role = some Role.hunter) := by
  induction ps generalizing rs with
  | nil =>
    cases rs with
    | nil =>
      refine ⟨rfl, ?_⟩
      intro kv h
      simp [assignList] at h
    | cons r rs2 => simp at hlen
  | cons kv0 rest ih =>
    cases rs with
    | nil => simp at hlen
    | cons r rs2 =>
      simp at hlen
      obtain ⟨h1, h2⟩ := ih rs2 hlen
      constructor
      · simp [assignList, h1]
      · intro kv hkv
        simp only [assignList, List.mem_cons] at hkv
        rcases hkv with hkv | hkv
        · subst hkv
          refine ⟨rfl, rfl, rfl, ?_⟩
          simp
        · exact h2 kv hkv

theorem assignedRoles_clearActed (ps : List (String × Player)) :
    (ps.map (fun kv => (kv.1, { kv.2 with hasActedThisNight := false }))).filterMap
        (fun kv => kv.2.role) = ps.filterMap (fun kv => kv.2.role) := by
  rw [List.filterMap_map]
  rfl

theorem buildRoles_count (n : Nat) :
    (buildRoles n).count Role.hunter = 1 ∧
    (buildRoles n).count Role.shaman = 1 ∧
    (buildRoles n).count Role.tiger = 1 ∧
    (buildRoles n).count Role.alphaTiger = (if 7 ≤ n then 1 else 0) ∧
    (buildRoles n).count Role.villager = n - (if 7 ≤ n then 4 else 3) := by
  unfold buildRoles
  by_cases h7 : 7 ≤ n <;>
    simp +decide [h7, List.count_append, List.count_replicate, List.count_cons]

/-- Claim C8: a game started with n players (5 ≤ n ≤ 10) whose shuffle is
any permutation of the assigner's role list receives exactly one Hunter,
one Shaman and one Tiger, plus one AlphaTiger exactly when n ≥ 7, with
Villagers filling the rest; every player comes out uncursed, with the
curse unspent, no protection memory, and canShoot exactly for the
Hunter. -/
theorem assignRoles_c8 (room : GameRoom) (now : Nat) (shuffled : List Role)
    (r : GameRoom)
    (h5 : 5 ≤ room.players.length) (h10 : room.players.length ≤ 10)
    (hperm : shuffled.Perm (buildRoles room.players.length))
    (hok : startGame room now shuffled = .ok r) :
    (assignedRoles r).Perm (buildRoles room.players.length) ∧
    (assignedRoles r).count Role.hunter = 1 ∧
    (assignedRoles r).count Role.shaman = 1 ∧
    (assignedRoles r).count Role.tiger = 1 ∧
    (assignedRoles r).count Role.alphaTiger = (if 7 ≤ room.players.length then 1 else 0) ∧
    (assignedRoles r).count Role.villager =
      room.players.length - (if 7 ≤ room.players.length then 4 else 3) ∧
    ∀ kv ∈ r.players, kv.2.isCursed = false ∧ kv.2.hasUsedCurse = false ∧
      kv.2.lastProtected = "" ∧ (kv.2.canShoot = true ↔ kv.2.role = some Role.hunter) := by
  have hlt : ¬(room.players.length < 5) := by omega
  unfold startGame at hok
  rw [if_neg hlt] at hok
  have hr := Except.ok.inj hok
  have hlen : shuffled.length = room.players.length := by
    rw [hperm.length_eq, buildRoles_length room.players.length (by omega)]
  obtain ⟨hroles, hflags⟩ := assignList_spec room.players shuffled hlen
  have hplayers : r.players = (assignList room.players shuffled).map
      (fun kv => (kv.1, { kv.2 with hasActedThisNight := false })) := by
    rw [← hr]
    rfl
  have ha : assignedRoles r = shuffled := by
    unfold assignedRoles
    rw [hplayers, assignedRoles_clearActed, hroles]
  have hcounts := buildRoles_count room.players.length
  refine ⟨ha ▸ hperm, ?_, ?_, ?_, ?_, ?_, ?_⟩
  · rw [ha, hperm.count_eq, hcounts.1]
  · rw [ha, hperm.count_eq, hcounts.2.1]
  · rw [ha, hperm.count_eq, hcounts.2.2.1]
  · rw [ha, hperm.count_eq, hcounts.2.2.2.1]
  · rw [ha, hperm.count_eq, hcounts.2.2.2.2]
  · intro kv hkv
    rw [hplayers] at hkv
    obtain ⟨kv0, hkv0, hkveq⟩ := List.mem_map.mp hkv
    have hf := hflags kv0 hkv0
    rw [← hkveq]
    exact ⟨hf.1, hf.2.1, hf.2.2.1, hf.2.2.2⟩

theorem moveToNextNightRole_adv (room : GameRoom) (i : Nat)
    (hph : room.phase = GamePhase.night)
    (hidx : roleIdx room.nightActionOrder room.currentNightRole = some i)
    (hlt : i + 1 < room.nightActionOrder.length) :
    moveToNextNightRole room =
      .ok (false, { room with currentNightRole := room.nightActionOrder.get? (i + 1) }) := by
  unfold moveToNextNightRole
  rw [if_neg (by simp [hph])]
  simp only [hidx]
  rw [if_pos hlt]

/-- Witness for claim C8: the five-player waiting room started with the
identity shuffle. -/
theorem assignRoles_c8_witness :
    5 ≤ waitRoom5.players.length ∧ waitRoom5.players.length ≤ 10 ∧
    ((assignedRoles c2room).Perm (buildRoles waitRoom5.players.length) ∧
      (assignedRoles c2room).count Role.hunter = 1 ∧
      (assignedRoles c2room).count Role.shaman = 1 ∧
      (assignedRoles c2room).count Role.tiger = 1 ∧
      (assignedRoles c2room).count Role.alphaTiger =
        (if 7 ≤ waitRoom5.players.length then 1 else 0) ∧
      (assignedRoles c2room).count Role.villager =
        waitRoom5.players.length - (if 7 ≤ waitRoom5.players.length then 4 else 3) ∧
      ∀ kv ∈ c2room.players, kv.2.isCursed = false ∧ kv.2.hasUsedCurse = false ∧
        kv.2.lastProtected = "" ∧ (kv.2.canShoot = true ↔ kv.2.role = some Role.hunter)) :=
  ⟨by decide, by decide,
   assignRoles_c8 waitRoom5 50 (buildRoles 5) c2room
     (by decide) (by decide) (List.Perm.refl _) (by decide)⟩

/-- Claim C10: a curse_action from the alpha tiger on an unknown or dead
target (during Night, with the current role having a successor in the
night order) reports no error to the caller, sets no cursed flag, leaves
the alpha's hasUsedCurse false, yet still marks the alpha's night turn
complete and advances currentNightRole exactly as a successful curse
would. -/
theorem curseAction_c10 (room : GameRoom) (clientId targetId : String) (now : Nat)
    (player : Player) (i : Nat)
    (hphase : room.phase = GamePhase.night)
    (hcl : lookupP room.players clientId = some player)
    (hrole : player.role = some Role.alphaTiger)
    (hused : player.hasUsedCurse = false)
    (htid : targetId ≠ "")
    (hbad : ∀ t, lookupP room.players targetId = some t → t.isAlive = false)
    (hidx : roleIdx room.nightActionOrder room.currentNightRole = some i)
    (hlt : i + 1 < room.nightActionOrder.length) :
    ∃ room3, handleCurseAction room clientId targetId now = some (none, room3) ∧
      (∀ pid, (lookupP room3.players pid).map Player.isCursed =
        (lookupP room.players pid).map Player.isCursed) ∧
      (lookupP room3.players clientId).map Player.hasUsedCurse = some false ∧
      (lookupP room3.players clientId).map Player.hasActedThisNight = some true ∧
      clientId ∈ room3.nightActionsCompleted ∧
      room3.currentNightRole = room.nightActionOrder.get? (i + 1) := by
  have hm2 : markNightActionCompleteFn room clientId =
      { setPlayer room clientId { player with hasActedThisNight := true } with
          nightActionsCompleted := insertId room.nightActionsCompleted clientId } := by
    unfold markNightActionCompleteFn
    simp only [hcl]
  have hmv : moveToNextNightRole (markNightActionCompleteFn room clientId) =
      .ok (false, { markNightActionCompleteFn room clientId with
                      currentNightRole :=
                        (markNightActionCompleteFn room clientId).nightActionOrder.get? (i + 1) }) := by
    apply moveToNextNightRole_adv
    · rw [hm2]
      exact hphase
    · rw [hm2]
      exact hidx
    · rw [hm2]
      exact hlt
  have hordget : (markNightActionCompleteFn room clientId).nightActionOrder.get? (i + 1) =
      room.nightActionOrder.get? (i + 1) := by
    rw [hm2]
    rfl
  rw [hordget] at hmv
  have hroom1 : (match lookupP room.players targetId with
      | some target =>
        if target.isAlive then applyCurse room clientId targetId target else room
      | none => room) = room := by
    cases hb : lookupP room.players targetId with
    | none => rfl
    | some t => simp [hbad t hb]
  refine ⟨{ markNightActionCompleteFn room clientId with
              currentNightRole := room.nightActionOrder.get? (i + 1) }, ?_, ?_, ?_, ?_, ?_, ?_⟩
  · unfold handleCurseAction
    rw [if_neg htid]
    simp only [hcl]
    rw [if_neg (not_not_intro hrole), if_neg (by simp [hused]), hroom1]
    unfold curseAdvance
    simp only [hmv]
    rfl
  · intro pid
    show (lookupP (markNightActionCompleteFn room clientId).players pid).map Player.isCursed = _
    rw [hm2]
    show (lookupP (updateList room.players clientId
      { player with hasActedThisNight := true }) pid).map Player.isCursed = _
    rw [lookupP_updateList]
    by_cases hp : pid = clientId
    · rw [if_pos hp, hp, hcl]
      rfl
    · rw [if_neg hp]
  · show (lookupP (markNightActionCompleteFn room clientId).players clientId).map
      Player.hasUsedCurse = some false
    rw [hm2]
    show (lookupP (updateList room.players clientId
      { player with hasActedThisNight := true }) clientId).map Player.hasUsedCurse = some false
    rw [lookupP_updateList, if_pos rfl, hcl]
    show some player.hasUsedCurse = some false
    rw [hused]
  · show (lookupP (markNightActionCompleteFn room clientId).players clientId).map
      Player.hasActedThisNight = some true
    rw [hm2]
    show (lookupP (updateList room.players clientId
      { player with hasActedThisNight := true }) clientId).map Player.hasActedThisNight = some true
    rw [lookupP_updateList, if_pos rfl, hcl]
    rfl
  · show clientId ∈ (markNightActionCompleteFn room clientId).nightActionsCompleted
    rw [hm2]
    exact mem_insertId_self room.nightActionsCompleted clientId
  · rfl

/-- Witness for claim C10: the alpha tiger in `c10room` curses the unknown
id zz. -/
theorem curseAction_c10_witness :
    c10room.phase = GamePhase.night ∧
    (∃ room3, handleCurseAction c10room "al" "zz" 0 = some (none, room3) ∧
      (∀ pid, (lookupP room3.players pid).map Player.isCursed =
        (lookupP c10room.players pid).map Player.isCursed) ∧
      (lookupP room3.players "al").map Player.hasUsedCurse = some false ∧
      (lookupP room3.players "al").map Player.hasActedThisNight = some true ∧
      "al" ∈ room3.nightActionsCompleted ∧
      room3.currentNightRole = c10room.nightActionOrder.get? (2 + 1)) :=
  ⟨by decide,
   curseAction_c10 c10room "al" "zz" 0
     (mkPlayer "al" "alu" (some Role.alphaTiger) true) 2
     (by decide) (by decide) (by decide) (by decide) (by decide)
     (fun t ht => by
       rw [show lookupP c10room.players "zz" = none from rfl] at ht
       exact Option.noConfusion ht)
     (by decide) (by decide)⟩

theorem lookupP_clearVoted (ps : List (String × Player)) (u : String) :
    lookupP (ps.map (fun kv => (kv.1, { kv.2 with votedFor := "" }))) u =
      (lookupP ps u).map (fun q => { q with votedFor := "" }) := by
  induction ps with
  | nil => rfl
  | cons kv rest ih =>
    by_cases hk : kv.1 = u <;> simp [lookupP, hk, ih]

theorem processVotes_eq (room : GameRoom) (p : Player)
    (hne : room.voteResults ≠ [])
    (hne2 : (selectVictim room.voteResults).2 ≠ "")
    (hpos : 0 < (selectVictim room.voteResults).1)
    (hp : lookupP room.players (selectVictim room.voteResults).2 = some p) :
    (processVotes room).voteResults = [] ∧
    (processVotes room).players =
      (updateList room.players (selectVictim room.voteResults).2
        { p with isAlive := false }).map
        (fun kv => (kv.1, { kv.2 with votedFor := "" })) := by
  unfold processVotes
  rw [if_neg hne]
  simp only [hp]
  rw [if_pos (And.intro hne2 hpos)]
  by_cases hh : p.role = some Role.hunter ∧ p.canShoot = true
  · rw [if_pos hh]
    exact ⟨by trivial, by trivial⟩
  · rw [if_neg hh]
    exact ⟨by trivial, by trivial⟩

/-- Claim C1 as amended: with zero recorded votes nothing happens, but on
a nonempty tally the scan picks an entry carrying the maximum count — the
first such entry in the tally's (unspecified Go map) iteration order —
and, when its count is positive and its target is a known player, that
player is eliminated even if other targets tie for the top count; the
tally and every votedFor are then cleared. -/
theorem processVotes_c1_amended (room : GameRoom) (p : Player)
    (hkeys : ∀ kv ∈ room.voteResults, kv.1 ≠ "")
    (hpos : 0 < (selectVictim room.voteResults).1)
    (hp : lookupP room.players (selectVictim room.voteResults).2 = some p) :
    (∀ room2 : GameRoom, room2.voteResults = [] → processVotes room2 = room2) ∧
    ((selectVictim room.voteResults).2, (selectVictim room.voteResults).1) ∈
      room.voteResults ∧
    (∀ kv ∈ room.voteResults, kv.2 ≤ (selectVictim room.voteResults).1) ∧
    aliveOf (processVotes room) (selectVictim room.voteResults).2 = some false ∧
    (processVotes room).voteResults = [] ∧
    (∀ kv ∈ (processVotes room).players, kv.2.votedFor = "") := by
  have hmem := selectVictim_mem room.voteResults hpos
  have hne : room.voteResults ≠ [] := List.ne_nil_of_mem hmem
  have hne2 : (selectVictim room.voteResults).2 ≠ "" := hkeys _ hmem
  obtain ⟨hvr, hpl⟩ := processVotes_eq room p hne hne2 hpos hp
  refine ⟨?_, hmem, selectVictim_le room.voteResults, ?_, hvr, ?_⟩
  · intro room2 h2
    unfold processVotes
    rw [if_pos h2]
  · show (lookupP (processVotes room).players (selectVictim room.voteResults).2).map
      Player.isAlive = some false
    rw [hpl, lookupP_clearVoted, lookupP_updateList, if_pos rfl, hp]
    rfl
  · intro kv hkv
    rw [hpl] at hkv
    obtain ⟨kv0, _, he⟩ := List.mem_map.mp hkv
    rw [← he]

/-- Witness for the amended claim C1 at the tied tally of `tieRoom`: the
scan selects ("a", 2), a maximal entry, and a is eliminated. -/
theorem processVotes_c1_amended_witness :
    (∀ kv ∈ tieRoom.voteResults, kv.1 ≠ "") ∧
    0 < (selectVictim tieRoom.voteResults).1 ∧
    (((∀ room2 : GameRoom, room2.voteResults = [] → processVotes room2 = room2) ∧
      ((selectVictim tieRoom.voteResults).2, (selectVictim tieRoom.voteResults).1) ∈
        tieRoom.voteResults ∧
      (∀ kv ∈ tieRoom.voteResults, kv.2 ≤ (selectVictim tieRoom.voteResults).1) ∧
      aliveOf (processVotes tieRoom) (selectVictim tieRoom.voteResults).2 = some false ∧
      (processVotes tieRoom).voteResults = [] ∧
      (∀ kv ∈ (processVotes tieRoom).players, kv.2.votedFor = ""))) :=
  ⟨by decide, by decide,
   processVotes_c1_amended tieRoom
     { mkPlayer "a" "au" (some Role.villager) true with votedFor := "b" }
     (by decide) (by decide) (by decide)⟩

/-- Claim C9 as amended: the sum equation holds throughout Voting for the
vote operation, but not for every operation reachable during Voting.  A
successful vote from a well-formed, per-target-accurate state preserves
well-formedness, per-target accuracy and the sum equation; hunterShoot,
which is also reachable during Voting, violates the equation when its
target has a recorded vote (the counterexample theorem). -/
theorem voteInvariant_c9_amended (room room2 : GameRoom) (voterId targetId : String)
    (hwf : roomWF room) (hacc : tallyAccurate room) (hsum : sumInvariant room)
    (hv : vote room voterId targetId = .ok room2) :
    roomWF room2 ∧ tallyAccurate room2 ∧ sumInvariant room2 := by
  obtain ⟨hndp, hidsne, hndv, hvkeys⟩ := hwf
  unfold vote at hv
  by_cases hph : room.phase ≠ GamePhase.voting
  · rw [if_pos hph] at hv
    exact absurd hv (by simp)
  rw [if_neg hph] at hv
  cases hpl : lookupP room.players voterId with
  | none =>
    simp only [hpl] at hv
    exact Except.noConfusion hv
  | some voter =>
    simp only [hpl] at hv
    by_cases halp : voter.isAlive = true
    case neg =>
      rw [if_pos halp] at hv
      exact absurd hv (by simp)
    rw [if_neg (not_not_intro halp)] at hv
    cases htl : lookupP room.players targetId with
    | none =>
      simp only [htl] at hv
      exact Except.noConfusion hv
    | some target =>
      simp only [htl] at hv
      by_cases htal : target.isAlive = true
      case neg =>
        rw [if_pos htal] at hv
        exact absurd hv (by simp)
      rw [if_neg (not_not_intro htal)] at hv
      have hre := Except.ok.inj hv
      have hply : room2.players =
          updateList room.players voterId { voter with votedFor := targetId } := by
        rw [← hre]
        rfl
      have hvres : room2.voteResults =
          voteInc (if voter.votedFor ≠ "" then voteDec room.voteResults voter.votedFor
                   else room.voteResults) targetId := by
        rw [← hre]
      have htid : targetId ≠ "" := hidsne _ (lookupP_mem htl)
      have hvid : voterId ≠ "" := hidsne _ (lookupP_mem hpl)
      have hvfor_ge : voter.votedFor ≠ "" → 1 ≤ votersFor room voter.votedFor := by
        intro h
        apply countQ_pos room.players voterId voter _ hpl
        simp [halp]
      have hvr1 : ∀ u : String,
          lookupVote (if voter.votedFor ≠ "" then voteDec room.voteResults voter.votedFor
            else room.voteResults) u =
          if voter.votedFor ≠ "" ∧ u = voter.votedFor then
            (votersFor room voter.votedFor : Int) - 1
          else lookupVote room.voteResults u := by
        intro u
        by_cases hold : voter.votedFor ≠ ""
        · rw [if_pos hold]
          have hlo : lookupVote room.voteResults voter.votedFor =
              (votersFor room voter.votedFor : Int) := hacc _ hold
          unfold voteDec
          by_cases hle : lookupVote room.voteResults voter.votedFor - 1 ≤ 0
          · rw [if_pos hle, lookupVote_eraseVote]
            by_cases hu : u = voter.votedFor
            · rw [if_pos hu, if_pos ⟨hold, hu⟩]
              have h1 : 1 ≤ votersFor room voter.votedFor := hvfor_ge hold
              rw [hlo] at hle
              have h2 : votersFor room voter.votedFor = 1 := by omega
              rw [h2]
              norm_num
            · rw [if_neg hu, if_neg (fun hc => hu hc.2)]
          · rw [if_neg hle, lookupVote_setVote]
            by_cases hu : u = voter.votedFor
            · rw [if_pos hu, if_pos ⟨hold, hu⟩, hlo]
            · rw [if_neg hu, if_neg (fun hc => hu hc.2)]
        · rw [if_neg hold, if_neg (fun hc => hold hc.1)]
      refine ⟨⟨?_, ?_, ?_, ?_⟩, ?_, ?_⟩
      · rw [hply, keys_updateList]
        exact hndp
      · rw [hply]
        intro kv hkv
        obtain ⟨kv0, h0, he⟩ := List.mem_map.mp hkv
        by_cases h1 : kv0.1 = voterId
        · rw [← he]
          simp only [h1, if_pos rfl]
          exact hvid
        · rw [← he]
          simp only [if_neg h1]
          exact hidsne kv0 h0
      · rw [hvres]
        unfold voteInc
        apply nodup_keys_setVote
        by_cases hold : voter.votedFor ≠ ""
        · rw [if_pos hold]
          unfold voteDec
          by_cases hle : lookupVote room.voteResults voter.votedFor - 1 ≤ 0
          · rw [if_pos hle]
            exact nodup_keys_eraseVote _ _ hndv
          · rw [if_neg hle]
            exact nodup_keys_setVote _ _ _ hndv
        · rw [if_neg hold]
          exact hndv
      · rw [hvres]
        unfold voteInc
        intro kv hkv
        rcases mem_setVote _ _ _ kv hkv with h1 | h1
        · rw [h1]
          exact htid
        · by_cases hold : voter.votedFor ≠ ""
          · rw [if_pos hold] at h1
            unfold voteDec at h1
            by_cases hle : lookupVote room.voteResults voter.votedFor - 1 ≤ 0
            · rw [if_pos hle] at h1
              exact hvkeys kv (mem_eraseVote _ _ kv h1)
            · rw [if_neg hle] at h1
              rcases mem_setVote _ _ _ kv h1 with h2 | h2
              · rw [h2]
                exact hold
              · exact hvkeys kv h2
          · rw [if_neg hold] at h1
            exact hvkeys kv h1
      · intro u hu
        have h0 := countQ_updateList room.players voterId voter
          { voter with votedFor := targetId }
          (fun p => p.isAlive && p.votedFor == u) hndp hpl
        have e1 : ((fun p : Player => p.isAlive && p.votedFor == u) voter)
            = decide (voter.votedFor = u) := by
          by_cases h : voter.votedFor = u <;> simp [halp, h]
        have e2 : ((fun p : Player => p.isAlive && p.votedFor == u)
            { voter with votedFor := targetId }) = decide (targetId = u) := by
          by_cases h : targetId = u <;> simp [halp, h]
        rw [e1, e2] at h0
        simp only [decide_eq_true_eq] at h0
        have hvf2 : votersFor room2 u = countQ (updateList room.players voterId
            { voter with votedFor := targetId }) (fun p => p.isAlive && p.votedFor == u) := by
          rw [votersFor, hply]
        have haccu : lookupVote room.voteResults u = (votersFor room u : Int) := hacc u hu
        have hvfu : votersFor room u = countQ room.players
            (fun p => p.isAlive && p.votedFor == u) := rfl
        show lookupVote room2.voteResults u = (votersFor room2 u : Int)
        rw [hvres]
        unfold voteInc
        rw [lookupVote_setVote, hvr1, hvr1]
        rw [← hvfu] at h0
        rw [← hvf2] at h0
        by_cases hut : u = targetId
        · rw [if_pos hut]
          by_cases hcase : voter.votedFor ≠ "" ∧ targetId = voter.votedFor
          · rw [if_pos hcase]
            have hou : voter.votedFor = u := (hcase.2.symm).trans hut.symm
            rw [if_pos hou, if_pos hut.symm] at h0
            have h1 : 1 ≤ votersFor room voter.votedFor := hvfor_ge hcase.1
            rw [hou] at h1
            rw [hou]
            omega
          · rw [if_neg hcase]
            have hou : ¬(voter.votedFor = u) := by
              intro he
              by_cases ho : voter.votedFor = ""
              · exact hu (by rw [← he]; exact ho)
              · exact hcase ⟨ho, hut ▸ he.symm⟩
            rw [if_neg hou, if_pos hut.symm] at h0
            rw [← hut, haccu]
            omega
        · rw [if_neg hut]
          have htu : ¬(targetId = u) := fun he => hut he.symm
          rw [if_neg htu] at h0
          by_cases hcase : voter.votedFor ≠ "" ∧ u = voter.votedFor
          · rw [if_pos hcase]
            rw [if_pos hcase.2.symm] at h0
            have h1 : 1 ≤ votersFor room voter.votedFor := hvfor_ge hcase.1
            rw [← hcase.2] at h1
            rw [← hcase.2]
            omega
          · rw [if_neg hcase]
            have hou : ¬(voter.votedFor = u) := by
              intro he
              by_cases ho : voter.votedFor = ""
              · exact hu (by rw [← he]; exact ho)
              · exact hcase ⟨ho, he.symm⟩
            rw [if_neg hou] at h0
            rw [haccu]
            omega
      · show voteSum room2.voteResults = (votedCount room2 : Int)
        have h0 := countQ_updateList room.players voterId voter
          { voter with votedFor := targetId }
          (fun p => p.isAlive && p.votedFor != "") hndp hpl
        have e1 : ((fun p : Player => p.isAlive && p.votedFor != "") voter)
            = decide (voter.votedFor ≠ "") := by
          by_cases h : voter.votedFor = "" <;> simp [halp, h]
        have e2 : ((fun p : Player => p.isAlive && p.votedFor != "")
            { voter with votedFor := targetId }) = true := by
          simp [halp, htid]
        rw [e1, e2] at h0
        simp only [decide_eq_true_eq, if_pos] at h0
        have hvc2 : votedCount room2 = countQ (updateList room.players voterId
            { voter with votedFor := targetId }) (fun p => p.isAlive && p.votedFor != "") := by
          rw [votedCount, hply]
        have hvcr : votedCount room = countQ room.players
            (fun p => p.isAlive && p.votedFor != "") := rfl
        rw [← hvc2, ← hvcr] at h0
        have hsv1 : voteSum (if voter.votedFor ≠ "" then
            voteDec room.voteResults voter.votedFor else room.voteResults) =
            voteSum room.voteResults - (if voter.votedFor ≠ "" then 1 else 0) := by
          by_cases hold : voter.votedFor ≠ ""
          · rw [if_pos hold, if_pos hold]
            have hlo : lookupVote room.voteResults voter.votedFor =
                (votersFor room voter.votedFor : Int) := hacc _ hold
            unfold voteDec
            by_cases hle : lookupVote room.voteResults voter.votedFor - 1 ≤ 0
            · rw [if_pos hle, voteSum_eraseVote _ _ hndv, hlo]
              have h1 : 1 ≤ votersFor room voter.votedFor := hvfor_ge hold
              rw [hlo] at hle
              have h2 : votersFor room voter.votedFor = 1 := by omega
              rw [h2]
              norm_num
            · rw [if_neg hle, voteSum_setVote]
              ring
          · rw [if_neg hold, if_neg hold]
            ring
        rw [hvres]
        unfold voteInc
        rw [voteSum_setVote, hsv1]
        unfold sumInvariant at hsum
        by_cases hold : voter.votedFor ≠ ""
        · rw [if_pos hold]
          rw [if_pos hold] at h0
          omega
        · rw [if_neg hold]
          rw [if_neg hold] at h0
          omega

/-- Witness for the amended claim C9: one vote cast in the accurate empty
tally of `c9wroom`. -/
theorem voteInvariant_c9_amended_witness :
    roomWF c9wafter ∧ tallyAccurate c9wafter ∧ sumInvariant c9wafter :=
  voteInvariant_c9_amended c9wroom c9wafter "a" "b"
    (by decide)
    (by
      intro t ht
      show lookupVote c9wroom.voteResults t = (votersFor c9wroom t : Int)
      have h2 : (("" : String) == t) = false :=
        beq_eq_false_iff_ne.mpr (fun he => ht he.symm)
      simp [c9wroom, mkRoom, mkPlayer, lookupVote, votersFor, countQ, h2])
    (by decide)
    (by decide)

end Werewolf
